import Mathlib

/-!
Verification development for the tiered public-health forecast pipeline
(`backend/app/agents/report_generator/services/forecast.py`).

The embedding models months as absolute month indices (`ℕ`, counting months
from year 0, so January 2021 is `2021 * 12 + 0`), calendar dates as a month
index plus a day-of-month, and all numeric values as rationals (`ℚ`), which
captures the exact arithmetic of the Python code apart from floating-point
rounding.  Python exceptions are modelled with `Except`: a function that can
raise returns `Except String α`, and a `try/except` block is a `match` on
that result.

External collaborators that `forecast.py` imports from modules that are not
part of the core source (`fetch_covid_timeseries`, `fetch_local_timeseries`,
`to_iso3`, the availability of `statsmodels`, and the SARIMAX fit itself,
which is third-party numerical code) are parameters collected in an `Env`
structure, so every theorem quantifies over their behaviour.  Two genuinely
transcendental operations used by the code, the square root inside the
standard deviation of `pandas.Series.std` and the sine wiggle of the
synthetic trend extender, are likewise `Env` parameters (`sq`, `sinS`); no
claim below depends on their numeric values, only on properties such as
nonnegativity of the square root, which are stated as explicit hypotheses
where needed.
-/

namespace PHF

/-! ## Character and string helpers

The Python code lowercases, trims, uppercases and does substring tests on
region and disease strings.  These helpers reimplement those operations over
`String.data` so that they reduce well; they agree with Python semantics on
the ASCII inputs the pipeline manipulates. -/

/-- Whitespace characters removed by Python `str.strip`. -/
def isWS (c : Char) : Bool :=
  c = ' ' ∨ c = '\t' ∨ c = '\n' ∨ c = '\r'

/-- Model of Python `str.strip`. -/
def trimStr (s : String) : String :=
  ⟨((s.data.dropWhile isWS).reverse.dropWhile isWS).reverse⟩

/-- Model of Python `str.lower` (ASCII). -/
def lowerStr (s : String) : String :=
  ⟨s.data.map Char.toLower⟩

/-- Model of Python `str.upper` (ASCII). -/
def upperStr (s : String) : String :=
  ⟨s.data.map Char.toUpper⟩

/-- Model of the Python substring test `pat in s`. -/
def occursIn (s pat : String) : Bool :=
  (List.range (s.data.length + 1)).any fun i => pat.data.isPrefixOf (s.data.drop i)

/-- Model of the Python order-preserving deduplication loop with a `seen`
set: keeps the first occurrence of each element. -/
def uniqKeepFirst {α : Type} [DecidableEq α] (seen : List α) : List α → List α
  | [] => []
  | x :: xs =>
    if x ∈ seen then uniqKeepFirst seen xs
    else x :: uniqKeepFirst (x :: seen) xs

/-! ## Data model -/

/-- One raw observation `{date, value}` as produced by an adapter; the date
is split into an absolute month index and a day-of-month. -/
structure Obs where
  month : ℕ
  day : ℕ
  value : ℚ
deriving DecidableEq

/-- One pre-clamping forecast row produced by a strategy: a month, the point
forecast (`mean`), and the raw interval bounds `lo`/`hi` (the `conf`
DataFrame row aligned with the mean series in the Python code). -/
structure PredPoint where
  month : ℕ
  mean : ℚ
  lo : ℚ
  hi : ℚ
deriving DecidableEq

/-- One caller-facing forecast record `{date, yhat, yhat_lower, yhat_upper}`
(forecast.py lines 337-342). -/
structure ForecastPoint where
  date : ℕ
  yhat : ℚ
  lower : ℚ
  upper : ℚ
deriving DecidableEq

/-- The `ForecastResult` dataclass (forecast.py lines 23-29).  History rows
are `(month, value)` pairs. -/
structure ForecastResult where
  history : List (ℕ × ℚ)
  forecast : List ForecastPoint
  method : String
  provenance : List String
  warnings : List String
deriving DecidableEq

/-- External collaborators of forecast.py, quantified over in every theorem:
the live adapter, the local adapter and `to_iso3` live in modules outside
the core source and may raise (`Except`); `hasSM` is the `_HAS_SM` flag set
by the `statsmodels` import attempt; `sarimax` is the third-party
SARIMAX fit-and-forecast (model construction at lines 214-224), which may
fail; `sq` is the square root used inside `pandas.Series.std`; `sinS k`
stands for `math.sin(k / 12 * 2 * math.pi)` in the synthetic trend
extender. -/
structure Env where
  hasSM : Bool
  sq : ℚ → ℚ
  sinS : ℕ → ℚ
  toIso3 : String → Except Unit String
  fetchLive : String → ℕ → ℕ → Except Unit (List Obs)
  fetchLocal : String → String → ℕ → ℕ → Except Unit (List Obs)
  sarimax : List (ℕ × ℚ) → ℤ → Except Unit (List PredPoint)

/-! ## Small internal helpers (forecast.py lines 32-78) -/

/-- Model of Python `max(values)` on a nonempty list (0 on `[]`, unreachable
at call sites because `_is_flat` guards emptiness first). -/
def qMax : List ℚ → ℚ
  | [] => 0
  | x :: xs => xs.foldl max x

/-- Model of Python `min(values)` on a nonempty list (0 on `[]`). -/
def qMin : List ℚ → ℚ
  | [] => 0
  | x :: xs => xs.foldl min x

/-- `_is_flat` (forecast.py lines 34-37): true on fewer than two values, or
when the spread is below `1e-9`. -/
def _is_flat (values : List ℚ) : Bool :=
  if values.isEmpty ∨ values.length < 2 then true
  else decide (qMax values - qMin values < 1 / 1000000000)

/-- Sample variance with `ddof=1`, the quantity under the square root in
`pandas.Series.std(ddof=1)`.  For fewer than two values pandas yields `NaN`;
every call site below guards the length (window of at least 2), so the `0`
default is unreachable. -/
def sampleVar (xs : List ℚ) : ℚ :=
  if xs.length < 2 then 0
  else
    let n : ℚ := xs.length
    let m := xs.sum / n
    ((xs.map fun x => (x - m) * (x - m)).sum) / (n - 1)

/-- Model of `pandas.Series.std(ddof=1)`: the environment square root
applied to the sample variance. -/
def sampleStd (sq : ℚ → ℚ) (xs : List ℚ) : ℚ :=
  sq (sampleVar xs)

/-- The consecutive month-start index of length `n` beginning the month
after `lastMonth`. -/
def futureIdx (lastMonth : ℕ) (n : ℕ) : List ℕ :=
  (List.range n).map fun k => lastMonth + 1 + k

/-- `_make_future_month_index` (forecast.py lines 77-78):
`pd.date_range(last + 1 month, periods=steps, freq="MS")`.  `pd.date_range`
raises `ValueError` when `periods` is negative, which is the `Except.error`
case here. -/
def _make_future_month_index (lastMonth : ℕ) (steps : ℤ) : Except String (List ℕ) :=
  if steps < 0 then .error ("date_range periods must be non-negative")
  else .ok (futureIdx lastMonth steps.toNat)

/-! ## Monthly series normalizer `_to_monthly_df` (forecast.py lines 40-74)

The input observations carry already-parsed dates and numeric values, so the
`pd.to_datetime` / `pd.to_numeric` coercions and the `dropna` are identity
here; `sort_values("date")` is omitted because neither the frequency
detection nor either aggregation branch depends on row order. -/

/-- Sum of the values of the observations falling in month `m`: the `sum`
aggregation that both branches of `_to_monthly_df` apply within one
calendar month. -/
def sumAtMonth (s : List Obs) (m : ℕ) : ℚ :=
  ((s.filter fun o => o.month == m).map Obs.value).sum

/-- Earliest month among the observations (0 on `[]`, unreachable: callers
guard emptiness). -/
def minMonth : List Obs → ℕ
  | [] => 0
  | o :: t => t.foldl (fun a o2 => min a o2.month) o.month

/-- Latest month among the observations (0 on `[]`). -/
def maxMonth : List Obs → ℕ
  | [] => 0
  | o :: t => t.foldl (fun a o2 => max a o2.month) o.month

/-- The daily branch (forecast.py lines 57-62):
`df.set_index("date").resample("MS").sum()`.  Resampling emits one row per
calendar month from the first to the last observed month, including gap
months, whose empty sum is 0. -/
def dailyResample (s : List Obs) : List (ℕ × ℚ) :=
  (List.range (maxMonth s + 1 - minMonth s)).map fun k =>
    (minMonth s + k, sumAtMonth s (minMonth s + k))

/-- The monthly branch (forecast.py lines 64-70): snap each date to its
month start (drop the day), `groupby("date").sum()`.  Pandas `groupby`
sorts the group keys ascending, hence the insertion sort over the distinct
months. -/
def monthlyGroup (s : List Obs) : List (ℕ × ℚ) :=
  (((s.map Obs.month).dedup).insertionSort (· ≤ ·)).map fun m => (m, sumAtMonth s m)

/-- The frequency-detection predicate of `_to_monthly_df` (forecast.py line
56): at least 28 rows spanning more than 5 distinct day-of-month values. -/
def classifiedDaily (s : List Obs) : Bool :=
  28 ≤ s.length ∧ 5 < ((s.map Obs.day).dedup).length

/-- `_to_monthly_df` (forecast.py lines 40-74): empty input gives an empty
frame; otherwise dispatch on the frequency detection. -/
def _to_monthly_df (s : List Obs) : List (ℕ × ℚ) :=
  if s.isEmpty then []
  else if classifiedDaily s then dailyResample s
  else monthlyGroup s

/-- Reinject a monthly frame as raw observations dated at the month start
(day 1), for feeding the normalizer its own output. -/
def reinjectMonthly (l : List (ℕ × ℚ)) : List Obs :=
  l.map fun p => ⟨p.1, 1, p.2⟩

/-! ## Synthetic baseline generator (spec-modelled) -/

/-- Fixed rational period-12 table standing for `sin(2 * pi * k / 12)`
inside the synthetic baseline (43/50 approximates sin 60 degrees). -/
def sinTab : ℕ → ℚ
  | 0 => 0
  | 1 => 1 / 2
  | 2 => 43 / 50
  | 3 => 1
  | 4 => 43 / 50
  | 5 => 1 / 2
  | 6 => 0
  | 7 => -(1 / 2)
  | 8 => -(43 / 50)
  | 9 => -1
  | 10 => -(43 / 50)
  | _ => -(1 / 2)

/-- Modelled from the spec: `generate_synthetic_timeseries` lives in
`timeseries.py`, which is not part of the core source.  Per the spec
(section 4.3 and the collaborator interface of section 6) it deterministically
generates a seasonal baseline of `points` monthly observations anchored to
the start of the requested date range, with a sinusoidal trend around
`startValue`; the sinusoid is modelled by the fixed rational table
`sinTab`, giving a non-flat, strictly-monthly series.  The end of the
requested range is not needed by any claim and is omitted. -/
def genSynth (dateFrom : ℕ) (points : ℕ) (startValue : ℚ) : List Obs :=
  (List.range points).map fun k =>
    ⟨dateFrom + k, 1, startValue * (1 + sinTab (k % 12) / 10)⟩

/-! ## Region normalization (forecast.py lines 83-130) -/

/-- The `_ALIAS_TO_ISO3` table (forecast.py lines 83-88). -/
def aliasIso3 (s : String) : Option String :=
  if s = "world" then some ("WLD")
  else if s = "global" then some ("WLD")
  else if s = "usa" then some ("USA")
  else if s = "united states" then some ("USA")
  else none

/-- `_region_candidates` (forecast.py lines 90-130): exact input, then the
alias table on the lowercased input, then `to_iso3` (exceptions swallowed,
falsy results skipped, uppercased and deduplicated), then the uppercased
input when it is a 3-letter alphabetic code; finally the order-preserving
uniqueness pass. -/
def _region_candidates (env : Env) (region : String) : List String :=
  let s := trimStr region
  if s = "" then []
  else
    let cands := [s]
    let cands :=
      match aliasIso3 (lowerStr s) with
      | some a => cands ++ [a]
      | none => cands
    let cands :=
      match env.toIso3 s with
      | .ok iso => if iso ≠ "" ∧ upperStr iso ∉ cands then cands ++ [upperStr iso] else cands
      | .error _ => cands
    let cands :=
      if s.data.length = 3 ∧ s.data.all Char.isAlpha then
        (if upperStr s ∉ cands then cands ++ [upperStr s] else cands)
      else cands
    uniqKeepFirst [] cands

/-! ## Data retrieval with provenance (forecast.py lines 135-196) -/

/-- Provenance string appended by the live stage. -/
def liveProvMsg : String := "live: disease.sh (JHU)"

/-- Provenance string appended by the local stage for region key `r`.  The
source wraps the key in single quotes, omitted here. -/
def localProvMsg (r : String) : String :=
  "local: monthly dataset (region key=" ++ r ++ ")"

/-- Provenance string appended by the synthetic stage. -/
def synthProvMsg : String := "synthetic: seasonal baseline (no/flat data)"

/-- Warning appended when no local candidate matched. -/
def noUsableMsg : String := "No usable live or local data in the requested window."

/-- The live stage (forecast.py lines 149-157): only attempted when the
lowercased disease contains "covid"; a fetch exception leaves `series =
None`; the provenance line is appended only for a truthy (nonempty)
result.  Returns the held series (`none` models Python `None`) and the
provenance entries so far. -/
def liveStage (env : Env) (diseaseL region : String) (dfrom dto : ℕ) :
    Option (List Obs) × List String :=
  if occursIn diseaseL ("covid") then
    match env.fetchLive region dfrom dto with
    | .ok s => (some s, if s.isEmpty then [] else [liveProvMsg])
    | .error _ => (none, [])
  else (none, [])

/-- The stage-advance test (forecast.py lines 161 and 183):
`not series or len(series) < 2 or _is_flat(values)`. -/
def seriesNotUsable : Option (List Obs) → Bool
  | none => true
  | some l => l.isEmpty ∨ l.length < 2 ∨ _is_flat (l.map Obs.value)

/-- The body of the local-stage loop (forecast.py lines 168-171): one call
to the local adapter with exceptions converted to an empty list. -/
def fetchLocalOr (env : Env) (dis r : String) (f t : ℕ) : List Obs :=
  match env.fetchLocal dis r f t with
  | .ok l => l
  | .error _ => []

/-- The local-stage loop (forecast.py lines 167-177): try each candidate
region key in order and stop at the first truthy (nonempty) result.
Python `None` and `[]` are both falsy, so both are the `.ok []` case of the
adapter. -/
def localScan (env : Env) (dis : String) (f t : ℕ) : List String → Option (String × List Obs)
  | [] => none
  | r :: rest =>
    let sl := fetchLocalOr env dis r f t
    if sl.isEmpty then localScan env dis f t rest else some (r, sl)

/-- Lowercased, stripped disease key (`disease_l`, forecast.py line 144). -/
def diseaseKey (disease : String) : String :=
  trimStr (lowerStr disease)

/-- The candidate list actually iterated by the local stage (forecast.py
lines 163-165): the region candidates, or the raw region if that list is
empty. -/
def triedKeys (env : Env) (region : String) : List String :=
  let cands := _region_candidates env region
  if cands.isEmpty then [region] else cands

/-- `get_monthly_history` (forecast.py lines 135-196): live, then local over
the candidate keys, then the synthetic baseline, with provenance and
warnings.  Returns the monthly frame, the provenance trail and the
warnings list. -/
def get_monthly_history (env : Env) (disease region : String) (dfrom dto : ℕ) :
    List (ℕ × ℚ) × List String × List String :=
  let lp := liveStage env (diseaseKey disease) region dfrom dto
  let stage2 :
      Option (List Obs) × List String × List String :=
    if seriesNotUsable lp.1 then
      match localScan env (diseaseKey disease) dfrom dto (triedKeys env region) with
      | some rs => (some rs.2, lp.2 ++ [localProvMsg rs.1], [])
      | none => (lp.1, lp.2, [noUsableMsg])
    else (lp.1, lp.2, [])
  let stage3 : List Obs × List String :=
    if seriesNotUsable stage2.1 then
      (genSynth dfrom 12 100, stage2.2.1 ++ [synthProvMsg])
    else ((stage2.1.getD []), stage2.2.1)
  (_to_monthly_df stage3.1, stage3.2, stage2.2.2)

/-! ## Forecast strategies (forecast.py lines 201-266) -/

/-- Last month of a monthly frame (`y.index[-1]`), with a default for the
empty case. -/
def lastMonth (y : List (ℕ × ℚ)) (dflt : ℕ) : ℕ :=
  match y.getLast? with
  | some p => p.1
  | none => dflt

/-- Last value of a monthly frame (`y.iloc[-1]`), with a default for the
empty case. -/
def lastValue (y : List (ℕ × ℚ)) (dflt : ℚ) : ℚ :=
  match y.getLast? with
  | some p => p.2
  | none => dflt

/-- `_sarimax_forecast` (forecast.py lines 201-226): fails when
`statsmodels` is unavailable, or the series is shorter than 24 points or
flat; otherwise the third-party fit runs (model orders (1,1,1) and
(1,1,1,12) and the 80 percent `conf_int` are fixed constants absorbed into
the oracle), and a fit failure is also an error. -/
def _sarimax_forecast (env : Env) (y : List (ℕ × ℚ)) (steps : ℤ) :
    Except String (List PredPoint) :=
  if ¬ env.hasSM then .error ("statsmodels unavailable")
  else if y.length < 24 ∨ _is_flat (y.map Prod.snd) then
    .error ("series too short or flat for SARIMAX")
  else
    match env.sarimax y steps with
    | .ok pts => .ok pts
    | .error _ => .error ("SARIMAX fit failed")

/-- The 12-lag residuals `hist.iloc[12:] - hist.shift(12).dropna()`
(forecast.py line 244): position `j` holds `y[12 + j] - y[j]`. -/
def lag12Resids (vals : List ℚ) : List ℚ :=
  List.zipWith (fun a b => a - b) (vals.drop 12) vals

/-- The residual standard deviation of the seasonal-naive strategy
(forecast.py lines 243-247): the standard deviation of the 12-lag
residuals, or of the raw series when there are fewer than 3 residuals. -/
def naiveSD (sq : ℚ → ℚ) (vals : List ℚ) : ℚ :=
  if 3 ≤ (lag12Resids vals).length then sampleStd sq (lag12Resids vals)
  else sampleStd sq vals

/-- `_naive_seasonal_forecast` (forecast.py lines 229-250): requires at
least 12 points; step `i` repeats `hist.iloc[-12 + (i % 12)]`, i.e. the
value at position `len - 12 + (i % 12)`; the band is `1.28` times
`naiveSD` (the `try/except` around the residual computation cannot fire
with at least 12 points). -/
def _naive_seasonal_forecast (sq : ℚ → ℚ) (y : List (ℕ × ℚ)) (steps : ℤ) :
    Except String (List PredPoint) :=
  if y.length < 12 then .error ("series too short for seasonal naive")
  else
    let vals := y.map Prod.snd
    let futureVals := (List.range steps.toNat).map fun i =>
      vals.getD (y.length - 12 + (i % 12)) 0
    match _make_future_month_index (lastMonth y 0) steps with
    | .error e => .error e
    | .ok idx =>
      let band := (32 / 25 : ℚ) * naiveSD sq vals
      .ok (List.zipWith (fun m v => PredPoint.mk m v (v - band) (v + band)) idx futureVals)

/-- `_moving_avg_forecast` (forecast.py lines 253-266): requires at least 2
points; forecasts the mean of the last `min(6, len)` points flatly; the
band is `1.64` times the standard deviation of that window (of the whole
series when the window is shorter than 3, i.e. the series has exactly 2
points).  The `math.isnan` fallback is unreachable here: the standard
deviation is always taken over at least two values. -/
def _moving_avg_forecast (sq : ℚ → ℚ) (y : List (ℕ × ℚ)) (steps : ℤ) :
    Except String (List PredPoint) :=
  if y.length < 2 then .error ("series too short for moving average")
  else
    let vals := y.map Prod.snd
    let w := min 6 y.length
    let tailW := vals.drop (y.length - w)
    let avg := tailW.sum / (w : ℚ)
    match _make_future_month_index (lastMonth y 0) steps with
    | .error e => .error e
    | .ok idx =>
      let sd := if 3 ≤ w then sampleStd sq tailW else sampleStd sq vals
      let band := (41 / 25 : ℚ) * sd
      .ok (idx.map fun m => PredPoint.mk m avg (avg - band) (avg + band))

/-! ## Selector and main entry point (forecast.py lines 271-350) -/

/-- The synthetic trend-extender values (forecast.py lines 318-323):
`cur = cur * (1 + 0.02 * sin((i % 12) / 12 * 2 * pi))`, appending after the
update, starting from `base` at step counter `i`. -/
def synthVals (sinS : ℕ → ℚ) (cur : ℚ) (i : ℕ) : ℕ → List ℚ
  | 0 => []
  | k + 1 =>
    let c := cur * (1 + (1 / 50) * sinS (i % 12))
    c :: synthVals sinS c (i + 1) k

/-- The strategy cascade of `forecast_monthly` (lines 296-313): SARIMAX,
then seasonal naive, then moving average, first success wins, each failure
caught (the `tried` diagnostics list is dropped: it is never returned). -/
def tryStrategies (env : Env) (y : List (ℕ × ℚ)) (h : ℤ) :
    Except String (List PredPoint × String) :=
  match _sarimax_forecast env y h with
  | .ok pts => .ok (pts, "sarimax")
  | .error _ =>
    match _naive_seasonal_forecast env.sq y h with
    | .ok pts => .ok (pts, "naive_seasonal")
    | .error _ =>
      match _moving_avg_forecast env.sq y h with
      | .ok pts => .ok (pts, "moving_avg")
      | .error _ => .error ("no model")

/-- Warning appended by the final synthetic extension. -/
def synthExtWarnMsg : String :=
  "Forecast produced from synthetic extension (no usable model)."

/-- The strategy cascade plus the final synthetic extension (forecast.py
lines 296-329).  The extension starts from the last observed value (100 on
an empty history), applies the sinusoidal wiggle, uses the band
`max(0.2 * base, 10)` and appends its warning; its call to
`_make_future_month_index` sits outside any `try`, so its error (negative
periods) propagates. -/
def selectWithSynth (env : Env) (y : List (ℕ × ℚ)) (dfrom : ℕ) (h : ℤ) :
    Except String (List PredPoint × String × List String) :=
  match tryStrategies env y h with
  | .ok pm => .ok (pm.1, pm.2, [])
  | .error _ =>
    let base := lastValue y 100
    let vals := synthVals env.sinS base 0 h.toNat
    match _make_future_month_index (lastMonth y dfrom) h with
    | .error e => .error e
    | .ok idx =>
      let band := max ((1 / 5) * base) 10
      .ok (List.zipWith (fun m v => PredPoint.mk m v (v - band) (v + band)) idx vals,
           "synthetic", [synthExtWarnMsg])

/-- The response formatting of `forecast_monthly` (lines 333-342): the
point estimate is passed through unclamped, both bounds are clamped to be
nonnegative. -/
def clampPoint (p : PredPoint) : ForecastPoint :=
  ⟨p.month, p.mean, max 0 p.lo, max 0 p.hi⟩

/-- The empty-history guard of `forecast_monthly` (forecast.py lines
283-289): the resolved history with its provenance and warnings, with the
synthetic replacement when the resolved frame is empty. -/
def historyGuard (env : Env) (disease region : String) (dfrom dto : ℕ) :
    List (ℕ × ℚ) × List String × List String :=
  let gmh := get_monthly_history env disease region dfrom dto
  if gmh.1.isEmpty then
    (_to_monthly_df (genSynth dfrom 12 100),
     gmh.2.1 ++ ["synthetic: seasonal baseline (history empty)"],
     gmh.2.2 ++ ["Empty history; using synthetic baseline."])
  else gmh

/-- `forecast_monthly` (forecast.py lines 271-350): resolve the monthly
history (with the empty-history synthetic replacement of lines 284-289),
run the strategy cascade, format the response.  The only uncaught
exception path is the final synthetic extension with a negative horizon. -/
def forecast_monthly (env : Env) (disease region : String) (dfrom dto : ℕ) (h : ℤ) :
    Except String ForecastResult :=
  let hpw := historyGuard env disease region dfrom dto
  match selectWithSynth env hpw.1 dfrom h with
  | .error e => .error e
  | .ok pmw =>
    .ok ⟨hpw.1, pmw.1.map clampPoint, pmw.2.1, hpw.2.1, hpw.2.2 ++ pmw.2.2⟩

/-! ## Concrete test data and environments

These closed instances are used to evaluate the pipeline at specific
inputs.  Month 24252 is January 2021 (2021 * 12), so 600 is January of
year 50; the particular anchor months are irrelevant to every fact
proved about them. -/

/-- A flat two-point local series (unusable: spread below epsilon). -/
def flatS : List Obs := [⟨0, 1, 5⟩, ⟨1, 1, 5⟩]

/-- A varied two-point local series (usable). -/
def variedS : List Obs := [⟨0, 1, 5⟩, ⟨1, 1, 9⟩]

/-- A usable local series with negative values. -/
def negS : List Obs := [⟨0, 1, -100⟩, ⟨1, 1, -200⟩]

/-- A second flat series at later months. -/
def flatS2 : List Obs := [⟨2, 1, 7⟩, ⟨3, 1, 7⟩]

/-- Environment with no statsmodels, adapters that always return no data,
a failing region resolver, and zero square-root and sine stand-ins (their
values never matter for the facts proved about this environment). -/
def envEmpty : Env :=
  ⟨false, fun _ => 0, fun _ => 0, fun _ => .error (), fun _ _ _ => .ok [],
   fun _ _ _ _ => .ok [], fun _ _ => .error ()⟩

/-- Environment whose local adapter returns the usable negative series for
every key. -/
def envNeg : Env :=
  ⟨false, fun _ => 0, fun _ => 0, fun _ => .error (), fun _ _ _ => .ok [],
   fun _ _ _ _ => .ok negS, fun _ _ => .error ()⟩

/-- Environment for the candidate-scan scenarios: the region resolver maps
every region to key xyz, the local adapter holds the flat series under the
raw key R and the varied one under XYZ. -/
def envC7 : Env :=
  ⟨false, fun _ => 0, fun _ => 0, fun _ => .ok ("xyz"),
   fun _ _ _ => .ok [],
   fun _ r _ _ =>
     if r = "R" then .ok flatS
     else if r = "XYZ" then .ok variedS
     else .ok [],
   fun _ _ => .error ()⟩

/-- Variant of `envC7` where every candidate yields a flat series. -/
def envC7b : Env :=
  ⟨false, fun _ => 0, fun _ => 0, fun _ => .ok ("xyz"),
   fun _ _ _ => .ok [],
   fun _ r _ _ =>
     if r = "R" then .ok flatS
     else if r = "XYZ" then .ok flatS2
     else .ok [],
   fun _ _ => .error ()⟩

/-- The 12-month linear-ramp history of the seasonal-naive scenario. -/
def rampY : List (ℕ × ℚ) :=
  [(600, 10), (601, 20), (602, 30), (603, 40), (604, 50), (605, 60),
   (606, 70), (607, 80), (608, 90), (609, 100), (610, 110), (611, 120)]

/-- Daily observations: value 10 on each of the 31 days of January 2021 and
each of the 28 days of February 2021, summing to 310 resp. 280. -/
def c5Daily : List Obs :=
  [⟨24252, 1, 10⟩, ⟨24252, 2, 10⟩, ⟨24252, 3, 10⟩, ⟨24252, 4, 10⟩, ⟨24252, 5, 10⟩, ⟨24252, 6, 10⟩, ⟨24252, 7, 10⟩, ⟨24252, 8, 10⟩, ⟨24252, 9, 10⟩, ⟨24252, 10, 10⟩, ⟨24252, 11, 10⟩, ⟨24252, 12, 10⟩, ⟨24252, 13, 10⟩, ⟨24252, 14, 10⟩, ⟨24252, 15, 10⟩, ⟨24252, 16, 10⟩, ⟨24252, 17, 10⟩, ⟨24252, 18, 10⟩, ⟨24252, 19, 10⟩, ⟨24252, 20, 10⟩, ⟨24252, 21, 10⟩, ⟨24252, 22, 10⟩, ⟨24252, 23, 10⟩, ⟨24252, 24, 10⟩, ⟨24252, 25, 10⟩, ⟨24252, 26, 10⟩, ⟨24252, 27, 10⟩, ⟨24252, 28, 10⟩, ⟨24252, 29, 10⟩, ⟨24252, 30, 10⟩, ⟨24252, 31, 10⟩,
   ⟨24253, 1, 10⟩, ⟨24253, 2, 10⟩, ⟨24253, 3, 10⟩, ⟨24253, 4, 10⟩, ⟨24253, 5, 10⟩, ⟨24253, 6, 10⟩, ⟨24253, 7, 10⟩, ⟨24253, 8, 10⟩, ⟨24253, 9, 10⟩, ⟨24253, 10, 10⟩, ⟨24253, 11, 10⟩, ⟨24253, 12, 10⟩, ⟨24253, 13, 10⟩, ⟨24253, 14, 10⟩, ⟨24253, 15, 10⟩, ⟨24253, 16, 10⟩, ⟨24253, 17, 10⟩, ⟨24253, 18, 10⟩, ⟨24253, 19, 10⟩, ⟨24253, 20, 10⟩, ⟨24253, 21, 10⟩, ⟨24253, 22, 10⟩, ⟨24253, 23, 10⟩, ⟨24253, 24, 10⟩, ⟨24253, 25, 10⟩, ⟨24253, 26, 10⟩, ⟨24253, 27, 10⟩, ⟨24253, 28, 10⟩]

/-! ## Lemmas about the monthly normalizer -/

theorem sumAtMonth_cons (o : Obs) (s : List Obs) (m : ℕ) :
    sumAtMonth (o :: s) m = (if o.month = m then o.value else 0) + sumAtMonth s m := by
  by_cases h : o.month = m
  · simp [sumAtMonth, List.filter_cons, h]
  · simp [sumAtMonth, List.filter_cons, h]

theorem sumAtMonth_eq_zero {s : List Obs} {m : ℕ} (h : m ∉ s.map Obs.month) :
    sumAtMonth s m = 0 := by
  induction s with
  | nil => rfl
  | cons o t ih =>
    rw [List.map_cons, List.mem_cons] at h
    push_neg at h
    rw [sumAtMonth_cons, if_neg (fun he => h.1 he.symm), ih h.2, add_zero]

theorem map_months_sumAt (s : List Obs) (hnd : (s.map Obs.month).Nodup) :
    (s.map Obs.month).map (fun m => (m, sumAtMonth s m)) = s.map fun o => (o.month, o.value) := by
  induction s with
  | nil => rfl
  | cons o t ih =>
    rw [List.map_cons, List.nodup_cons] at hnd
    obtain ⟨hni, hnd2⟩ := hnd
    rw [List.map_cons, List.map_cons, List.map_cons]
    have h1 : sumAtMonth (o :: t) o.month = o.value := by
      rw [sumAtMonth_cons, if_pos rfl, sumAtMonth_eq_zero hni, add_zero]
    have hcong : ∀ m ∈ t.map Obs.month,
        (m, sumAtMonth (o :: t) m) = (m, sumAtMonth t m) := by
      intro m hm
      have hne : o.month ≠ m := fun he => hni (he ▸ hm)
      rw [sumAtMonth_cons, if_neg hne, zero_add]
    rw [h1, List.map_congr_left hcong, ih hnd2]

theorem monthlyGroup_eq_of {s : List Obs} (hnd : (s.map Obs.month).Nodup)
    (hs : (s.map Obs.month).Sorted (· ≤ ·)) :
    monthlyGroup s = s.map fun o => (o.month, o.value) := by
  unfold monthlyGroup
  rw [List.dedup_eq_self.mpr hnd, List.Sorted.insertionSort_eq hs, map_months_sumAt s hnd]

theorem reinject_days (l : List (ℕ × ℚ)) :
    (reinjectMonthly l).map Obs.day = List.replicate l.length 1 := by
  induction l with
  | nil => rfl
  | cons p t ih => simp [reinjectMonthly, List.replicate_succ] at ih ⊢; exact ih

theorem nodup_const_length_le_one {α : Type} {l : List α} {a : α}
    (hnd : l.Nodup) (h : ∀ x ∈ l, x = a) : l.length ≤ 1 := by
  match l with
  | [] => simp
  | [x] => simp
  | x :: y :: t =>
    exfalso
    have hx := h x (by simp)
    have hy := h y (by simp)
    rw [List.nodup_cons] at hnd
    exact hnd.1 (by rw [hx, ← hy]; simp)

theorem classifiedDaily_reinject (l : List (ℕ × ℚ)) :
    classifiedDaily (reinjectMonthly l) = false := by
  have hsub : ∀ x ∈ ((reinjectMonthly l).map Obs.day).dedup, x = 1 := by
    intro x hx
    have hx2 := List.mem_dedup.mp hx
    rw [reinject_days] at hx2
    exact List.eq_of_mem_replicate hx2
  have hlen := nodup_const_length_le_one (List.nodup_dedup _) hsub
  unfold classifiedDaily
  rw [decide_eq_false_iff_not]
  rintro ⟨-, h5⟩
  omega

theorem reinject_months (l : List (ℕ × ℚ)) :
    (reinjectMonthly l).map Obs.month = l.map Prod.fst := by
  simp [reinjectMonthly, List.map_map, Function.comp]

theorem toMonthly_reinject {l : List (ℕ × ℚ)} (hnd : (l.map Prod.fst).Nodup)
    (hs : (l.map Prod.fst).Sorted (· ≤ ·)) :
    _to_monthly_df (reinjectMonthly l) = l := by
  match l with
  | [] => rfl
  | p :: t =>
    have hne : (reinjectMonthly (p :: t)).isEmpty = false := by
      simp [reinjectMonthly]
    rw [_to_monthly_df, hne, classifiedDaily_reinject]
    simp only [Bool.false_eq_true, if_false]
    rw [monthlyGroup_eq_of ((reinject_months _).symm ▸ hnd) ((reinject_months _).symm ▸ hs)]
    unfold reinjectMonthly
    rw [List.map_map]
    have hfun : ((fun (o : Obs) => (o.month, o.value)) ∘ fun (q : ℕ × ℚ) => (⟨q.1, 1, q.2⟩ : Obs))
        = fun q => q := funext fun q => rfl
    rw [hfun]
    exact List.map_id' _

theorem toMonthly_months_sorted (s : List Obs) :
    ((_to_monthly_df s).map Prod.fst).Sorted (· < ·) := by
  rw [_to_monthly_df]
  by_cases he : s.isEmpty
  · simp [he]
  · rw [if_neg (by simp [he])]
    by_cases hc : classifiedDaily s
    · rw [if_pos hc]
      unfold dailyResample
      rw [List.map_map]
      have heq : (Prod.fst ∘ fun k => (minMonth s + k, sumAtMonth s (minMonth s + k)))
          = fun k => minMonth s + k := rfl
      rw [heq]
      exact (List.pairwise_lt_range _).map _ (fun a b hab => by omega)
    · rw [if_neg hc]
      unfold monthlyGroup
      rw [List.map_map]
      have heq : (Prod.fst ∘ fun m => (m, sumAtMonth s m)) = fun m => m := rfl
      rw [heq]
      have hmap : ∀ (L : List ℕ), L.map (fun m => m) = L := fun L => by simp
      rw [hmap]
      have hsorted : (((s.map Obs.month).dedup).insertionSort (· ≤ ·)).Sorted (· ≤ ·) :=
        List.sorted_insertionSort _ _
      have hnd : (((s.map Obs.month).dedup).insertionSort (· ≤ ·)).Nodup :=
        (List.perm_insertionSort _ _).nodup_iff.mpr (List.nodup_dedup _)
      exact hsorted.lt_of_le hnd

theorem foldl_minMonth_le (t : List Obs) (a : ℕ) :
    t.foldl (fun b o2 => min b o2.month) a ≤ a := by
  induction t generalizing a with
  | nil => simp
  | cons o t ih =>
    simp only [List.foldl_cons]
    exact le_trans (ih _) (min_le_left _ _)

theorem le_foldl_maxMonth (t : List Obs) (a : ℕ) :
    a ≤ t.foldl (fun b o2 => max b o2.month) a := by
  induction t generalizing a with
  | nil => simp
  | cons o t ih =>
    simp only [List.foldl_cons]
    exact le_trans (le_max_left _ _) (ih _)

theorem minMonth_le_maxMonth {s : List Obs} (h : s ≠ []) : minMonth s ≤ maxMonth s := by
  match s with
  | o :: t =>
    exact le_trans (foldl_minMonth_le t o.month) (le_foldl_maxMonth t o.month)

theorem toMonthly_ne_nil {s : List Obs} (h : s ≠ []) : _to_monthly_df s ≠ [] := by
  obtain ⟨o, t, rfl⟩ : ∃ o t, s = o :: t := by
    cases s with
    | nil => exact absurd rfl h
    | cons o t => exact ⟨o, t, rfl⟩
  rw [_to_monthly_df]
  rw [if_neg (by simp [List.isEmpty_iff])]
  by_cases hc : classifiedDaily (o :: t)
  · rw [if_pos hc]
    unfold dailyResample
    rw [Ne, List.map_eq_nil_iff, List.range_eq_nil]
    have := minMonth_le_maxMonth h
    omega
  · rw [if_neg hc]
    unfold monthlyGroup
    rw [Ne, List.map_eq_nil_iff]
    intro hnil
    have hlen := (List.perm_insertionSort (· ≤ ·) (((o :: t).map Obs.month).dedup)).length_eq
    rw [hnil] at hlen
    have hmem : o.month ∈ ((o :: t).map Obs.month).dedup :=
      List.mem_dedup.mpr (by simp)
    have hpos := List.length_pos_of_mem hmem
    rw [List.length_nil] at hlen
    omega

theorem genSynth_length (f p : ℕ) (v : ℚ) : (genSynth f p v).length = p := by
  simp [genSynth]

theorem genSynth_ne_nil (f : ℕ) (v : ℚ) : genSynth f 12 v ≠ [] := by
  intro h
  have := genSynth_length f 12 v
  rw [h] at this
  simp at this

theorem genSynth_months (f p : ℕ) (v : ℚ) :
    (genSynth f p v).map Obs.month = (List.range p).map fun k => f + k := by
  unfold genSynth
  rw [List.map_map]
  rfl

theorem genSynth_months_sorted (f p : ℕ) (v : ℚ) :
    ((genSynth f p v).map Obs.month).Sorted (· ≤ ·) := by
  rw [genSynth_months]
  exact (List.pairwise_lt_range p).map _ (fun a b hab => by omega)

theorem genSynth_months_nodup (f p : ℕ) (v : ℚ) :
    ((genSynth f p v).map Obs.month).Nodup := by
  rw [genSynth_months]
  exact ((List.pairwise_lt_range p).map _ (fun a b hab => by omega : ∀ a b : ℕ,
    a < b → f + a ≠ f + b)).imp (fun h => h)

theorem classifiedDaily_genSynth (f : ℕ) (v : ℚ) :
    classifiedDaily (genSynth f 12 v) = false := by
  unfold classifiedDaily
  rw [decide_eq_false_iff_not]
  rintro ⟨h28, -⟩
  rw [genSynth_length] at h28
  omega

theorem toMonthly_genSynth (f : ℕ) (v : ℚ) :
    _to_monthly_df (genSynth f 12 v)
      = (List.range 12).map fun k => (f + k, v * (1 + sinTab (k % 12) / 10)) := by
  rw [_to_monthly_df]
  rw [if_neg (by simp [List.isEmpty_iff, genSynth_ne_nil f v])]
  rw [classifiedDaily_genSynth]
  simp only [Bool.false_eq_true, if_false]
  rw [monthlyGroup_eq_of (genSynth_months_nodup f 12 v) (genSynth_months_sorted f 12 v)]
  unfold genSynth
  rw [List.map_map]
  rfl

theorem toMonthly_genSynth_length (f : ℕ) (v : ℚ) :
    (_to_monthly_df (genSynth f 12 v)).length = 12 := by
  rw [toMonthly_genSynth]
  simp

theorem historyGuard_fst (env : Env) (d r : String) (f t : ℕ) :
    (historyGuard env d r f t).1 =
      if (get_monthly_history env d r f t).1.isEmpty then
        _to_monthly_df (genSynth f 12 100)
      else (get_monthly_history env d r f t).1 := by
  rw [historyGuard]
  by_cases he : (get_monthly_history env d r f t).1.isEmpty
  · rw [if_pos he, if_pos he]
  · rw [if_neg he, if_neg he]

theorem historyGuard_ne_nil (env : Env) (d r : String) (f t : ℕ) :
    (historyGuard env d r f t).1 ≠ [] := by
  rw [historyGuard_fst]
  by_cases he : (get_monthly_history env d r f t).1.isEmpty
  · rw [if_pos he]
    intro hnil
    have hl := toMonthly_genSynth_length f 100
    rw [hnil] at hl
    simp at hl
  · rw [if_neg he]
    rw [List.isEmpty_iff] at he
    exact he

/-! ## Lemmas about the forecast strategies and the selector -/

theorem futureIdx_length (lastM n : ℕ) : (futureIdx lastM n).length = n := by
  simp [futureIdx]

theorem futureIdx_pairwise (lastM n : ℕ) : (futureIdx lastM n).Pairwise (· < ·) :=
  (List.pairwise_lt_range n).map _ (fun a b hab => by omega)

theorem synthVals_length (sinS : ℕ → ℚ) (c : ℚ) (i n : ℕ) :
    (synthVals sinS c i n).length = n := by
  induction n generalizing c i with
  | zero => rfl
  | succ k ih => simp [synthVals, ih]

theorem zipWith_mk_map_month (idx : List ℕ) (vals : List ℚ) (flo fhi : ℚ → ℚ)
    (h : idx.length ≤ vals.length) :
    (List.zipWith (fun m v => PredPoint.mk m v (flo v) (fhi v)) idx vals).map
      PredPoint.month = idx := by
  induction idx generalizing vals with
  | nil => rfl
  | cons m idx ih =>
    match vals with
    | [] => simp at h
    | v :: vals =>
      simp only [List.zipWith_cons_cons, List.map_cons]
      rw [ih vals (by simpa using h)]

theorem zipWith_mk_map_mean (idx : List ℕ) (vals : List ℚ) (flo fhi : ℚ → ℚ)
    (h : vals.length ≤ idx.length) :
    (List.zipWith (fun m v => PredPoint.mk m v (flo v) (fhi v)) idx vals).map
      PredPoint.mean = vals := by
  induction idx generalizing vals with
  | nil =>
    match vals with
    | [] => rfl
    | v :: vals => simp at h
  | cons m idx ih =>
    match vals with
    | [] => rfl
    | v :: vals =>
      simp only [List.zipWith_cons_cons, List.map_cons]
      rw [ih vals (by simpa using h)]

theorem mem_zipWith_mk {p : PredPoint} {idx : List ℕ} {vals : List ℚ} {flo fhi : ℚ → ℚ}
    (h : p ∈ List.zipWith (fun m v => PredPoint.mk m v (flo v) (fhi v)) idx vals) :
    ∃ m v, p = PredPoint.mk m v (flo v) (fhi v) := by
  induction idx generalizing vals with
  | nil => simp at h
  | cons m idx ih =>
    match vals with
    | [] => simp at h
    | v :: vals =>
      rw [List.zipWith_cons_cons, List.mem_cons] at h
      rcases h with h | h
      · exact ⟨m, v, h⟩
      · exact ih h

theorem lastMonth_congr {y : List (ℕ × ℚ)} (h : y ≠ []) (a b : ℕ) :
    lastMonth y a = lastMonth y b := by
  unfold lastMonth
  rw [List.getLast?_eq_getLast y h]

/-- Elimination form of a successful seasonal-naive run: the guard passed,
the horizon was nonnegative, and the points are the zip of the future month
index with the wrapped historical values, with the `1.28 * naiveSD` band. -/
theorem naive_ok_elim {sq : ℚ → ℚ} {y : List (ℕ × ℚ)} {steps : ℤ} {pts : List PredPoint}
    (h : _naive_seasonal_forecast sq y steps = .ok pts) :
    12 ≤ y.length ∧ 0 ≤ steps ∧
      pts = List.zipWith
        (fun m v => PredPoint.mk m v (v - (32 / 25 : ℚ) * naiveSD sq (y.map Prod.snd))
          (v + (32 / 25 : ℚ) * naiveSD sq (y.map Prod.snd)))
        (futureIdx (lastMonth y 0) steps.toNat)
        ((List.range steps.toNat).map fun i =>
          (y.map Prod.snd).getD (y.length - 12 + (i % 12)) 0) := by
  simp only [_naive_seasonal_forecast] at h
  split at h
  · cases h
  · rename_i h12
    split at h
    · cases h
    · rename_i idx heq
      rw [_make_future_month_index] at heq
      split at heq
      · cases heq
      · rename_i hneg
        injection heq with heq
        injection h with h
        subst heq
        exact ⟨by omega, by omega, h.symm⟩

/-- Elimination form of a successful moving-average run. -/
theorem moving_ok_elim {sq : ℚ → ℚ} {y : List (ℕ × ℚ)} {steps : ℤ} {pts : List PredPoint}
    (h : _moving_avg_forecast sq y steps = .ok pts) :
    2 ≤ y.length ∧ 0 ≤ steps ∧
      pts = (futureIdx (lastMonth y 0) steps.toNat).map (fun m =>
        PredPoint.mk m
          (((y.map Prod.snd).drop (y.length - min 6 y.length)).sum / ((min 6 y.length : ℕ) : ℚ))
          ((((y.map Prod.snd).drop (y.length - min 6 y.length)).sum / ((min 6 y.length : ℕ) : ℚ))
            - (41 / 25 : ℚ) * (if 3 ≤ min 6 y.length
                then sampleStd sq ((y.map Prod.snd).drop (y.length - min 6 y.length))
                else sampleStd sq (y.map Prod.snd)))
          ((((y.map Prod.snd).drop (y.length - min 6 y.length)).sum / ((min 6 y.length : ℕ) : ℚ))
            + (41 / 25 : ℚ) * (if 3 ≤ min 6 y.length
                then sampleStd sq ((y.map Prod.snd).drop (y.length - min 6 y.length))
                else sampleStd sq (y.map Prod.snd)))) := by
  simp only [_moving_avg_forecast] at h
  split at h
  · cases h
  · rename_i h2
    split at h
    · cases h
    · rename_i idx heq
      rw [_make_future_month_index] at heq
      split at heq
      · cases heq
      · rename_i hneg
        injection heq with heq
        injection h with h
        subst heq
        exact ⟨by omega, by omega, h.symm⟩

/-- Elimination form of a successful SARIMAX run: the guards passed and the
points came from the external fit. -/
theorem sarimax_ok_elim {env : Env} {y : List (ℕ × ℚ)} {steps : ℤ} {pts : List PredPoint}
    (h : _sarimax_forecast env y steps = .ok pts) :
    env.hasSM = true ∧ 24 ≤ y.length ∧ env.sarimax y steps = .ok pts := by
  simp only [_sarimax_forecast] at h
  split at h
  · cases h
  · rename_i hsm
    split at h
    · cases h
    · rename_i hlenflat
      push_neg at hlenflat
      split at h
      · rename_i pts2 heq
        injection h with h
        subst h
        exact ⟨by simpa using hsm, by omega, heq⟩
      · cases h

/-- Case analysis of the strategy cascade of `forecast_monthly`. -/
theorem tryStrategies_cases {env : Env} {y : List (ℕ × ℚ)} {h : ℤ}
    {pts : List PredPoint} {m : String}
    (hok : tryStrategies env y h = .ok (pts, m)) :
    (m = "sarimax" ∧ _sarimax_forecast env y h = .ok pts) ∨
    (m = "naive_seasonal" ∧ _naive_seasonal_forecast env.sq y h = .ok pts) ∨
    (m = "moving_avg" ∧ _moving_avg_forecast env.sq y h = .ok pts) := by
  rw [tryStrategies] at hok
  split at hok
  · rename_i pts2 heq
    simp only [Except.ok.injEq, Prod.mk.injEq] at hok
    exact Or.inl ⟨hok.2.symm, hok.1 ▸ heq⟩
  · rename_i e1 heq1
    split at hok
    · rename_i pts2 heq
      simp only [Except.ok.injEq, Prod.mk.injEq] at hok
      exact Or.inr (Or.inl ⟨hok.2.symm, hok.1 ▸ heq⟩)
    · rename_i e2 heq2
      split at hok
      · rename_i pts2 heq
        simp only [Except.ok.injEq, Prod.mk.injEq] at hok
        exact Or.inr (Or.inr ⟨hok.2.symm, hok.1 ▸ heq⟩)
      · cases hok

/-- Case analysis of the selector including the final synthetic extension. -/
theorem selectWithSynth_cases {env : Env} {y : List (ℕ × ℚ)} {dfrom : ℕ} {h : ℤ}
    {pts : List PredPoint} {m : String} {w : List String}
    (hok : selectWithSynth env y dfrom h = .ok (pts, m, w)) :
    (w = [] ∧ tryStrategies env y h = .ok (pts, m)) ∨
    (m = "synthetic" ∧ w = [synthExtWarnMsg] ∧ 0 ≤ h ∧
      pts = List.zipWith
        (fun mo v => PredPoint.mk mo v (v - max ((1 / 5) * lastValue y 100) 10)
          (v + max ((1 / 5) * lastValue y 100) 10))
        (futureIdx (lastMonth y dfrom) h.toNat)
        (synthVals env.sinS (lastValue y 100) 0 h.toNat)) := by
  simp only [selectWithSynth] at hok
  split at hok
  · rename_i pm heq
    simp only [Except.ok.injEq, Prod.mk.injEq] at hok
    obtain ⟨h1, h2, h3⟩ := hok
    left
    refine ⟨h3.symm, ?_⟩
    have hpm : pm = (pts, m) := by
      rw [← h1, ← h2]
    rw [← hpm]
    exact heq
  · rename_i e heq
    split at hok
    · cases hok
    · rename_i idx heq2
      rw [_make_future_month_index] at heq2
      split at heq2
      · cases heq2
      · rename_i hneg
        injection heq2 with heq2
        simp only [Except.ok.injEq, Prod.mk.injEq] at hok
        obtain ⟨h1, h2, h3⟩ := hok
        right
        subst heq2
        exact ⟨h2.symm, h3.symm, by omega, h1.symm⟩

/-- Interface contract of the external SARIMAX fit used for index facts:
`statsmodels` `get_forecast` rejects a negative step count and continues the
monthly in-sample index, so a successful fit forecasts exactly the
consecutive month starts after the last historical month. -/
def SarimaxIdxOK (env : Env) : Prop :=
  ∀ y steps out, env.sarimax y steps = .ok out →
    0 ≤ steps ∧ out.map PredPoint.month = futureIdx (lastMonth y 0) steps.toNat

/-- Interface contract of the external SARIMAX fit used for bound facts:
`conf_int` brackets the predicted mean (it is mean plus/minus a nonnegative
multiple of the standard error). -/
def SarimaxBoundsOK (env : Env) : Prop :=
  ∀ y steps out, env.sarimax y steps = .ok out →
    ∀ p ∈ out, p.lo ≤ p.mean ∧ p.mean ≤ p.hi

theorem naiveSD_nonneg {sq : ℚ → ℚ} (hsq : ∀ q, 0 ≤ sq q) (vals : List ℚ) :
    0 ≤ naiveSD sq vals := by
  unfold naiveSD sampleStd
  split
  · exact hsq _
  · exact hsq _

theorem selectWithSynth_months {env : Env} {y : List (ℕ × ℚ)} {dfrom : ℕ} {h : ℤ}
    {pts : List PredPoint} {m : String} {w : List String}
    (hsar : SarimaxIdxOK env) (hy : y ≠ [])
    (hok : selectWithSynth env y dfrom h = .ok (pts, m, w)) :
    0 ≤ h ∧ pts.map PredPoint.month = futureIdx (lastMonth y dfrom) h.toNat := by
  rcases selectWithSynth_cases hok with ⟨hw, htry⟩ | ⟨hm, hw, hpos, hpts⟩
  · rcases tryStrategies_cases htry with ⟨_, hs⟩ | ⟨_, hn⟩ | ⟨_, hm2⟩
    · obtain ⟨-, -, hfit⟩ := sarimax_ok_elim hs
      obtain ⟨hpos, hmonths⟩ := hsar _ _ _ hfit
      rw [lastMonth_congr hy dfrom 0]
      exact ⟨hpos, hmonths⟩
    · obtain ⟨h12, hpos, hpts⟩ := naive_ok_elim hn
      subst hpts
      rw [lastMonth_congr hy dfrom 0]
      refine ⟨hpos, ?_⟩
      apply zipWith_mk_map_month
      rw [futureIdx_length, List.length_map, List.length_range]
    · obtain ⟨h2, hpos, hpts⟩ := moving_ok_elim hm2
      subst hpts
      rw [lastMonth_congr hy dfrom 0]
      refine ⟨hpos, ?_⟩
      rw [List.map_map]
      exact List.map_id' _
  · subst hpts
    refine ⟨hpos, ?_⟩
    apply zipWith_mk_map_month
    rw [futureIdx_length, synthVals_length]

theorem selectWithSynth_length {env : Env} {y : List (ℕ × ℚ)} {dfrom : ℕ} {h : ℤ}
    {pts : List PredPoint} {m : String} {w : List String}
    (hsar : SarimaxIdxOK env) (hy : y ≠ [])
    (hok : selectWithSynth env y dfrom h = .ok (pts, m, w)) :
    pts.length = h.toNat := by
  have hmonths := (selectWithSynth_months hsar hy hok).2
  have := congrArg List.length hmonths
  rwa [List.length_map, futureIdx_length] at this

theorem selectWithSynth_ok_of_nonneg (env : Env) (y : List (ℕ × ℚ)) (dfrom : ℕ)
    {h : ℤ} (hpos : 0 ≤ h) :
    ∃ out, selectWithSynth env y dfrom h = .ok out := by
  rw [selectWithSynth]
  cases htry : tryStrategies env y h with
  | ok pm => exact ⟨_, rfl⟩
  | error e =>
    rw [_make_future_month_index, if_neg (by omega)]
    exact ⟨_, rfl⟩

theorem selectWithSynth_bounds {env : Env} {y : List (ℕ × ℚ)} {dfrom : ℕ} {h : ℤ}
    {pts : List PredPoint} {m : String} {w : List String}
    (hsq : ∀ q, 0 ≤ env.sq q) (hsar : SarimaxBoundsOK env)
    (hok : selectWithSynth env y dfrom h = .ok (pts, m, w)) :
    ∀ p ∈ pts, p.lo ≤ p.mean ∧ p.mean ≤ p.hi := by
  intro p hp
  rcases selectWithSynth_cases hok with ⟨hw, htry⟩ | ⟨hm, hw, hpos, hpts⟩
  · rcases tryStrategies_cases htry with ⟨-, hs⟩ | ⟨-, hn⟩ | ⟨-, hm2⟩
    · exact hsar _ _ _ (sarimax_ok_elim hs).2.2 p hp
    · obtain ⟨h12, hpos, hpts⟩ := naive_ok_elim hn
      subst hpts
      obtain ⟨mo, v, rfl⟩ := mem_zipWith_mk hp
      have hband : 0 ≤ (32 / 25 : ℚ) * naiveSD env.sq (y.map Prod.snd) := by
        have := naiveSD_nonneg hsq (y.map Prod.snd)
        positivity
      constructor
      · simp only [PredPoint.mk.injEq]
        linarith
      · simp only [PredPoint.mk.injEq]
        linarith
    · obtain ⟨h2, hpos, hpts⟩ := moving_ok_elim hm2
      subst hpts
      obtain ⟨mo, hmo, rfl⟩ := List.mem_map.mp hp
      have hband : 0 ≤ (41 / 25 : ℚ) * (if 3 ≤ min 6 y.length
          then sampleStd env.sq ((y.map Prod.snd).drop (y.length - min 6 y.length))
          else sampleStd env.sq (y.map Prod.snd)) := by
        have hnn : 0 ≤ (if 3 ≤ min 6 y.length
            then sampleStd env.sq ((y.map Prod.snd).drop (y.length - min 6 y.length))
            else sampleStd env.sq (y.map Prod.snd)) := by
          unfold sampleStd
          split
          · exact hsq _
          · exact hsq _
        positivity
      constructor
      · simp only []
        linarith
      · simp only []
        linarith
  · subst hpts
    obtain ⟨mo, v, rfl⟩ := mem_zipWith_mk hp
    have hband : (0 : ℚ) ≤ max ((1 / 5) * lastValue y 100) 10 :=
      le_trans (by norm_num) (le_max_right _ _)
    constructor
    · simp only []
      linarith
    · simp only []
      linarith

/-- Unfolding equation of `forecast_monthly` in terms of `historyGuard` and
`selectWithSynth`. -/
theorem forecast_monthly_eq (env : Env) (d r : String) (f t : ℕ) (h : ℤ) :
    forecast_monthly env d r f t h =
      match selectWithSynth env (historyGuard env d r f t).1 f h with
      | .error e => .error e
      | .ok pmw =>
        .ok ⟨(historyGuard env d r f t).1, pmw.1.map clampPoint, pmw.2.1,
          (historyGuard env d r f t).2.1, (historyGuard env d r f t).2.2 ++ pmw.2.2⟩ := rfl

theorem forecast_monthly_ok_elim {env : Env} {d r : String} {f t : ℕ} {h : ℤ}
    {res : ForecastResult}
    (hok : forecast_monthly env d r f t h = .ok res) :
    ∃ pts m w, selectWithSynth env (historyGuard env d r f t).1 f h = .ok (pts, m, w) ∧
      res = ⟨(historyGuard env d r f t).1, pts.map clampPoint, m,
        (historyGuard env d r f t).2.1, (historyGuard env d r f t).2.2 ++ w⟩ := by
  rw [forecast_monthly_eq] at hok
  split at hok
  · cases hok
  · rename_i pmw heq
    injection hok with hok
    exact ⟨pmw.1, pmw.2.1, pmw.2.2, heq, hok.symm⟩

/-! ## Lemmas about the data resolver -/

theorem seriesNotUsable_none : seriesNotUsable none = true := rfl

theorem seriesNotUsable_some (l : List Obs) :
    seriesNotUsable (some l) = true ↔
      (l = [] ∨ l.length < 2 ∨ _is_flat (l.map Obs.value) = true) := by
  simp [seriesNotUsable, List.isEmpty_iff]

theorem localScan_none_iff {env : Env} {dis : String} {f t : ℕ} {keys : List String} :
    localScan env dis f t keys = none ↔
      ∀ k ∈ keys, fetchLocalOr env dis k f t = [] := by
  induction keys with
  | nil => simp [localScan]
  | cons r rest ih =>
    rw [localScan]
    by_cases he : (fetchLocalOr env dis r f t).isEmpty
    · rw [if_pos he]
      rw [List.isEmpty_iff] at he
      rw [ih]
      constructor
      · intro hall k hk
        rcases List.mem_cons.mp hk with rfl | hk
        · exact he
        · exact hall k hk
      · intro hall k hk
        exact hall k (List.mem_cons_of_mem r hk)
    · rw [if_neg he]
      rw [List.isEmpty_iff] at he
      constructor
      · intro hcon
        cases hcon
      · intro hall
        exact absurd (hall r (List.mem_cons_self r rest)) he

/-- A successful local scan stops at the first candidate whose (exception
swallowed) result is nonempty: every earlier candidate returned an empty or
failing result, and the returned series is that candidate resp. result. -/
theorem localScan_some_spec {env : Env} {dis : String} {f t : ℕ} {keys : List String}
    {r : String} {s : List Obs}
    (h : localScan env dis f t keys = some (r, s)) :
    s ≠ [] ∧ fetchLocalOr env dis r f t = s ∧
      ∃ pre post, keys = pre ++ r :: post ∧
        ∀ k ∈ pre, fetchLocalOr env dis k f t = [] := by
  induction keys with
  | nil => cases h
  | cons k rest ih =>
    rw [localScan] at h
    by_cases he : (fetchLocalOr env dis k f t).isEmpty
    · rw [if_pos he] at h
      obtain ⟨h1, h2, pre, post, h3, h4⟩ := ih h
      refine ⟨h1, h2, k :: pre, post, by rw [h3]; rfl, ?_⟩
      intro k2 hk2
      rcases List.mem_cons.mp hk2 with rfl | hk2
      · rwa [List.isEmpty_iff] at he
      · exact h4 k2 hk2
    · rw [if_neg he] at h
      injection h with h
      simp only [Prod.mk.injEq] at h
      obtain ⟨rfl, hs⟩ := h
      rw [List.isEmpty_iff] at he
      exact ⟨hs ▸ he, hs, [], rest, rfl, by simp⟩

theorem liveStage_empty {env : Env} (hl : ∀ r a b, env.fetchLive r a b = .ok [])
    (dL region : String) (f t : ℕ) :
    seriesNotUsable (liveStage env dL region f t).1 = true ∧
      (liveStage env dL region f t).2 = [] := by
  rw [liveStage]
  by_cases hc : occursIn dL ("covid")
  · rw [if_pos hc, hl]
    exact ⟨by simp [seriesNotUsable], by simp⟩
  · rw [if_neg hc]
    exact ⟨rfl, rfl⟩

theorem localScan_none_of_empty {env : Env}
    (hloc : ∀ d k a b, env.fetchLocal d k a b = .ok []) (dis : String) (f t : ℕ)
    (keys : List String) :
    localScan env dis f t keys = none := by
  rw [localScan_none_iff]
  intro k hk
  rw [fetchLocalOr, hloc]

/-- Resolver outcome when the live stage is unusable and the local scan
adopts a series that itself fails the usability test: the synthetic stage
replaces it, both the local and the synthetic provenance entries are
present, and no warning is appended. -/
theorem gmh_scan_some_bad {env : Env} {disease region : String} {f t : ℕ}
    {r : String} {s : List Obs}
    (hlive : seriesNotUsable (liveStage env (diseaseKey disease) region f t).1 = true)
    (hscan : localScan env (diseaseKey disease) f t (triedKeys env region) = some (r, s))
    (hbad : seriesNotUsable (some s) = true) :
    get_monthly_history env disease region f t =
      (_to_monthly_df (genSynth f 12 100),
       (liveStage env (diseaseKey disease) region f t).2 ++ [localProvMsg r] ++ [synthProvMsg],
       []) := by
  simp only [get_monthly_history, hlive, if_true, hscan, hbad, List.append_assoc]

/-- Resolver outcome when the live stage is unusable and the local scan
adopts a usable series: it is kept, with the local provenance entry and no
warning. -/
theorem gmh_scan_some_good {env : Env} {disease region : String} {f t : ℕ}
    {r : String} {s : List Obs}
    (hlive : seriesNotUsable (liveStage env (diseaseKey disease) region f t).1 = true)
    (hscan : localScan env (diseaseKey disease) f t (triedKeys env region) = some (r, s))
    (hgood : seriesNotUsable (some s) = false) :
    get_monthly_history env disease region f t =
      (_to_monthly_df s,
       (liveStage env (diseaseKey disease) region f t).2 ++ [localProvMsg r],
       []) := by
  simp only [get_monthly_history, hlive, if_true, hscan, hgood, Bool.false_eq_true, if_false,
    Option.getD_some]

/-- Resolver outcome when the live stage is unusable and no local candidate
returns a nonempty series: the synthetic baseline is used and exactly one
warning is appended. -/
theorem gmh_scan_none {env : Env} {disease region : String} {f t : ℕ}
    (hlive : seriesNotUsable (liveStage env (diseaseKey disease) region f t).1 = true)
    (hscan : localScan env (diseaseKey disease) f t (triedKeys env region) = none) :
    get_monthly_history env disease region f t =
      (_to_monthly_df (genSynth f 12 100),
       (liveStage env (diseaseKey disease) region f t).2 ++ [synthProvMsg],
       [noUsableMsg]) := by
  simp only [get_monthly_history, hlive, if_true, hscan]

/-! ## Introduction lemmas for successful runs -/

theorem historyGuard_of_ne {env : Env} {d r : String} {f t : ℕ}
    (hne : (get_monthly_history env d r f t).1 ≠ []) :
    historyGuard env d r f t = get_monthly_history env d r f t := by
  rw [historyGuard]
  rw [if_neg (by simp [List.isEmpty_iff, hne])]

theorem sarimax_err_short {env : Env} {y : List (ℕ × ℚ)} {steps : ℤ}
    (hlen : y.length < 24) :
    ∃ e, _sarimax_forecast env y steps = .error e := by
  rw [_sarimax_forecast]
  by_cases hsm : env.hasSM = true
  · rw [if_neg (by simp [hsm])]
    rw [if_pos (Or.inl hlen)]
    exact ⟨_, rfl⟩
  · rw [if_pos (by simp [hsm])]
    exact ⟨_, rfl⟩

theorem naive_ok_intro (sq : ℚ → ℚ) (y : List (ℕ × ℚ)) (steps : ℤ)
    (h12 : 12 ≤ y.length) (hpos : 0 ≤ steps) :
    _naive_seasonal_forecast sq y steps = .ok (List.zipWith
      (fun m v => PredPoint.mk m v (v - (32 / 25 : ℚ) * naiveSD sq (y.map Prod.snd))
        (v + (32 / 25 : ℚ) * naiveSD sq (y.map Prod.snd)))
      (futureIdx (lastMonth y 0) steps.toNat)
      ((List.range steps.toNat).map fun i =>
        (y.map Prod.snd).getD (y.length - 12 + (i % 12)) 0)) := by
  rw [_naive_seasonal_forecast, if_neg (by omega), _make_future_month_index,
    if_neg (by omega)]

theorem tryStrategies_naive {env : Env} {y : List (ℕ × ℚ)} {steps : ℤ}
    {pts : List PredPoint}
    (hserr : ∃ e, _sarimax_forecast env y steps = .error e)
    (hnaive : _naive_seasonal_forecast env.sq y steps = .ok pts) :
    tryStrategies env y steps = .ok (pts, "naive_seasonal") := by
  obtain ⟨e, he⟩ := hserr
  rw [tryStrategies, he, hnaive]

theorem selectWithSynth_of_try {env : Env} {y : List (ℕ × ℚ)} (dfrom : ℕ) {h : ℤ}
    {pts : List PredPoint} {m : String}
    (htry : tryStrategies env y h = .ok (pts, m)) :
    selectWithSynth env y dfrom h = .ok (pts, m, []) := by
  rw [selectWithSynth, htry]

theorem forecast_of_select {env : Env} {d r : String} {f t : ℕ} {h : ℤ}
    {pts : List PredPoint} {m : String} {w : List String}
    (hsel : selectWithSynth env (historyGuard env d r f t).1 f h = .ok (pts, m, w)) :
    forecast_monthly env d r f t h = .ok
      ⟨(historyGuard env d r f t).1, pts.map clampPoint, m,
       (historyGuard env d r f t).2.1, (historyGuard env d r f t).2.2 ++ w⟩ := by
  rw [forecast_monthly_eq, hsel]

/-- With adapters that return no data, the guarded history is the monthly
form of the synthetic baseline and the single no-usable-data warning was
appended. -/
theorem historyGuard_empty_adapters (env : Env) (disease region : String) (f t : ℕ)
    (hl : ∀ r2 a b, env.fetchLive r2 a b = .ok [])
    (hloc : ∀ d2 k a b, env.fetchLocal d2 k a b = .ok []) :
    (historyGuard env disease region f t).1 = _to_monthly_df (genSynth f 12 100) ∧
    (historyGuard env disease region f t).2.2 = [noUsableMsg] := by
  obtain ⟨hlive, hlp2⟩ := liveStage_empty hl (diseaseKey disease) region f t
  have hscan := localScan_none_of_empty hloc (diseaseKey disease) f t
    (triedKeys env region)
  have hg := gmh_scan_none hlive hscan
  rw [hlp2] at hg
  rw [List.nil_append] at hg
  have h1 : (get_monthly_history env disease region f t).1
      = _to_monthly_df (genSynth f 12 100) := by
    rw [hg]
  have h22 : (get_monthly_history env disease region f t).2.2 = [noUsableMsg] := by
    rw [hg]
  have hne : (get_monthly_history env disease region f t).1 ≠ [] := by
    rw [h1]
    exact toMonthly_ne_nil (genSynth_ne_nil f 100)
  have hguard := historyGuard_of_ne hne
  rw [hguard]
  exact ⟨h1, h22⟩

/-- Full pipeline trace under adapters that return no data: the resolver
falls through to the 12-point synthetic baseline, SARIMAX fails on length,
and the seasonal-naive repeater wins with exactly one prior warning. -/
theorem forecast_empty_adapters (env : Env) (disease region : String) (f t : ℕ)
    (hl : ∀ r2 a b, env.fetchLive r2 a b = .ok [])
    (hloc : ∀ d2 k a b, env.fetchLocal d2 k a b = .ok []) :
    ∃ res, forecast_monthly env disease region f t 6 = .ok res ∧
      res.method = "naive_seasonal" ∧ res.forecast.length = 6 ∧
      res.warnings = [noUsableMsg] := by
  obtain ⟨hguard1, hguard22⟩ := historyGuard_empty_adapters env disease region f t hl hloc
  have hylen : (historyGuard env disease region f t).1.length = 12 := by
    rw [hguard1]
    exact toMonthly_genSynth_length f 100
  have hserr : ∃ e, _sarimax_forecast env (historyGuard env disease region f t).1
      (6 : ℤ) = .error e :=
    sarimax_err_short (by omega)
  have hnaive := naive_ok_intro env.sq ((historyGuard env disease region f t).1)
    (6 : ℤ) (by omega) (by norm_num)
  have htry := tryStrategies_naive hserr hnaive
  have hsel := selectWithSynth_of_try f htry
  have hfc := forecast_of_select hsel
  refine ⟨_, hfc, rfl, ?_, ?_⟩
  · simp only [List.length_map, List.length_zipWith, futureIdx_length, List.length_range]
    omega
  · show (historyGuard env disease region f t).2.2 ++ [] = [noUsableMsg]
    rw [hguard22, List.append_nil]

/-! ## Error-path lemmas -/

theorem sarimax_err_noSM {env : Env} {y : List (ℕ × ℚ)} {steps : ℤ}
    (h : env.hasSM = false) :
    ∃ e, _sarimax_forecast env y steps = .error e := by
  rw [_sarimax_forecast, if_pos (by simp [h])]
  exact ⟨_, rfl⟩

theorem naive_err_short {sq : ℚ → ℚ} {y : List (ℕ × ℚ)} {steps : ℤ}
    (h12 : y.length < 12) :
    ∃ e, _naive_seasonal_forecast sq y steps = .error e := by
  rw [_naive_seasonal_forecast, if_pos h12]
  exact ⟨_, rfl⟩

theorem naive_err_neg {sq : ℚ → ℚ} {y : List (ℕ × ℚ)} {steps : ℤ}
    (hneg : steps < 0) :
    ∃ e, _naive_seasonal_forecast sq y steps = .error e := by
  rw [_naive_seasonal_forecast]
  by_cases h12 : y.length < 12
  · rw [if_pos h12]
    exact ⟨_, rfl⟩
  · rw [if_neg h12, _make_future_month_index, if_pos hneg]
    exact ⟨_, rfl⟩

theorem moving_err_neg {sq : ℚ → ℚ} {y : List (ℕ × ℚ)} {steps : ℤ}
    (hneg : steps < 0) :
    ∃ e, _moving_avg_forecast sq y steps = .error e := by
  rw [_moving_avg_forecast]
  by_cases h2 : y.length < 2
  · rw [if_pos h2]
    exact ⟨_, rfl⟩
  · rw [if_neg h2, _make_future_month_index, if_pos hneg]
    exact ⟨_, rfl⟩

theorem moving_ok_intro (sq : ℚ → ℚ) (y : List (ℕ × ℚ)) (steps : ℤ)
    (h2 : 2 ≤ y.length) (hpos : 0 ≤ steps) :
    _moving_avg_forecast sq y steps = .ok
      ((futureIdx (lastMonth y 0) steps.toNat).map (fun m =>
        PredPoint.mk m
          (((y.map Prod.snd).drop (y.length - min 6 y.length)).sum / ((min 6 y.length : ℕ) : ℚ))
          ((((y.map Prod.snd).drop (y.length - min 6 y.length)).sum / ((min 6 y.length : ℕ) : ℚ))
            - (41 / 25 : ℚ) * (if 3 ≤ min 6 y.length
                then sampleStd sq ((y.map Prod.snd).drop (y.length - min 6 y.length))
                else sampleStd sq (y.map Prod.snd)))
          ((((y.map Prod.snd).drop (y.length - min 6 y.length)).sum / ((min 6 y.length : ℕ) : ℚ))
            + (41 / 25 : ℚ) * (if 3 ≤ min 6 y.length
                then sampleStd sq ((y.map Prod.snd).drop (y.length - min 6 y.length))
                else sampleStd sq (y.map Prod.snd))))) := by
  rw [_moving_avg_forecast, if_neg (by omega), _make_future_month_index, if_neg (by omega)]

theorem tryStrategies_moving {env : Env} {y : List (ℕ × ℚ)} {steps : ℤ}
    {pts : List PredPoint}
    (hserr : ∃ e, _sarimax_forecast env y steps = .error e)
    (hnerr : ∃ e, _naive_seasonal_forecast env.sq y steps = .error e)
    (hmov : _moving_avg_forecast env.sq y steps = .ok pts) :
    tryStrategies env y steps = .ok (pts, "moving_avg") := by
  obtain ⟨e1, he1⟩ := hserr
  obtain ⟨e2, he2⟩ := hnerr
  rw [tryStrategies, he1, he2, hmov]

theorem tryStrategies_err {env : Env} {y : List (ℕ × ℚ)} {steps : ℤ}
    (hserr : ∃ e, _sarimax_forecast env y steps = .error e)
    (hnerr : ∃ e, _naive_seasonal_forecast env.sq y steps = .error e)
    (hmerr : ∃ e, _moving_avg_forecast env.sq y steps = .error e) :
    tryStrategies env y steps = .error ("no model") := by
  obtain ⟨e1, he1⟩ := hserr
  obtain ⟨e2, he2⟩ := hnerr
  obtain ⟨e3, he3⟩ := hmerr
  rw [tryStrategies, he1, he2, he3]

theorem selectWithSynth_err_of_neg {env : Env} {y : List (ℕ × ℚ)} (dfrom : ℕ) {h : ℤ}
    (hneg : h < 0)
    (htry : tryStrategies env y h = .error ("no model")) :
    selectWithSynth env y dfrom h = .error ("date_range periods must be non-negative") := by
  rw [selectWithSynth, htry, _make_future_month_index, if_pos hneg]

theorem forecast_err {env : Env} {d r : String} {f t : ℕ} {h : ℤ} {e : String}
    (hsel : selectWithSynth env (historyGuard env d r f t).1 f h = .error e) :
    forecast_monthly env d r f t h = .error e := by
  rw [forecast_monthly_eq, hsel]

/-! ## Concrete evaluation facts

Rational arithmetic in this library is deliberately irreducible, so closed
runs of the pipeline are evaluated through the introduction lemmas above
plus `norm_num` on the handful of rational values involved. -/

set_option maxRecDepth 8000

theorem isFlat_flatS : _is_flat (flatS.map Obs.value) = true := by
  rw [_is_flat, if_neg (by simp [flatS])]
  rw [decide_eq_true_eq]
  show qMax [(5 : ℚ), 5] - qMin [(5 : ℚ), 5] < 1 / 1000000000
  norm_num [qMax, qMin]

theorem notUsable_flatS : seriesNotUsable (some flatS) = true := by
  rw [seriesNotUsable, decide_eq_true_eq]
  exact Or.inr (Or.inr isFlat_flatS)

theorem isFlat_flatS2 : _is_flat (flatS2.map Obs.value) = true := by
  rw [_is_flat, if_neg (by simp [flatS2])]
  rw [decide_eq_true_eq]
  show qMax [(7 : ℚ), 7] - qMin [(7 : ℚ), 7] < 1 / 1000000000
  norm_num [qMax, qMin]

theorem notUsable_flatS2 : seriesNotUsable (some flatS2) = true := by
  rw [seriesNotUsable, decide_eq_true_eq]
  exact Or.inr (Or.inr isFlat_flatS2)

theorem isFlat_variedS : _is_flat (variedS.map Obs.value) = false := by
  rw [_is_flat, if_neg (by simp [variedS])]
  rw [decide_eq_false_iff_not]
  show ¬ (qMax [(5 : ℚ), 9] - qMin [(5 : ℚ), 9] < 1 / 1000000000)
  norm_num [qMax, qMin]

theorem notUsable_variedS : seriesNotUsable (some variedS) = false := by
  rw [seriesNotUsable, decide_eq_false_iff_not]
  push_neg
  refine ⟨by simp [variedS], by simp [variedS], ?_⟩
  have := isFlat_variedS
  simp [this]

theorem isFlat_negS : _is_flat (negS.map Obs.value) = false := by
  rw [_is_flat, if_neg (by simp [negS])]
  rw [decide_eq_false_iff_not]
  show ¬ (qMax [(-100 : ℚ), -200] - qMin [(-100 : ℚ), -200] < 1 / 1000000000)
  norm_num [qMax, qMin]

theorem notUsable_negS : seriesNotUsable (some negS) = false := by
  rw [seriesNotUsable, decide_eq_false_iff_not]
  push_neg
  refine ⟨by simp [negS], by simp [negS], ?_⟩
  have := isFlat_negS
  simp [this]

theorem toMonthly_negS : _to_monthly_df negS = [(0, -100), (1, -200)] := by
  have hnd : (negS.map Obs.month).Nodup := by decide
  have hs : (negS.map Obs.month).Sorted (· ≤ ·) := by decide
  rw [_to_monthly_df, if_neg (by decide)]
  have hc : classifiedDaily negS = false := by decide
  rw [hc]
  simp only [Bool.false_eq_true, if_false]
  rw [monthlyGroup_eq_of hnd hs]
  rfl

theorem envNeg_hist1 :
    (historyGuard envNeg "dengue" "R" 0 24).1 = [(0, -100), (1, -200)] := by
  have hlive : seriesNotUsable (liveStage envNeg (diseaseKey "dengue") "R" 0 24).1
      = true := by decide
  have hscan : localScan envNeg (diseaseKey "dengue") 0 24 (triedKeys envNeg "R")
      = some ("R", negS) := rfl
  have hg := gmh_scan_some_good hlive hscan notUsable_negS
  have h1 : (get_monthly_history envNeg "dengue" "R" 0 24).1 = _to_monthly_df negS := by
    rw [hg]
  have hne : (get_monthly_history envNeg "dengue" "R" 0 24).1 ≠ [] := by
    rw [h1, toMonthly_negS]
    simp
  rw [historyGuard_of_ne hne, h1, toMonthly_negS]

theorem moving_concrete :
    _moving_avg_forecast (fun _ => 0) [((0 : ℕ), (-100 : ℚ)), (1, -200)] 1
      = .ok [⟨2, -150, -150, -150⟩] := by
  rw [moving_ok_intro (fun _ => 0) [((0 : ℕ), (-100 : ℚ)), (1, -200)] 1
    (by norm_num) (by norm_num)]
  simp only [Except.ok.injEq]
  simp only [futureIdx, lastMonth, sampleStd, List.getLast?]
  norm_num
  rfl

/-- Full run of the pipeline on the negative-valued local series: the
moving-average strategy forecasts the mean -150 with a zero band (the
square root stand-in of this environment is the zero function), and the
response clamps both bounds to 0 while leaving the point estimate at
-150. -/
theorem envNeg_forecast :
    (forecast_monthly envNeg "dengue" "R" 0 24 1).toOption.map ForecastResult.forecast
      = some [⟨2, -150, 0, 0⟩] := by
  have hy1 := envNeg_hist1
  have hserr : ∃ e, _sarimax_forecast envNeg (historyGuard envNeg "dengue" "R" 0 24).1 1
      = .error e := sarimax_err_noSM rfl
  have hnerr : ∃ e, _naive_seasonal_forecast envNeg.sq
      (historyGuard envNeg "dengue" "R" 0 24).1 1 = .error e :=
    naive_err_short (by rw [hy1]; norm_num)
  have hmov : _moving_avg_forecast envNeg.sq
      (historyGuard envNeg "dengue" "R" 0 24).1 1 = .ok [⟨2, -150, -150, -150⟩] := by
    rw [hy1]
    exact moving_concrete
  have htry := tryStrategies_moving hserr hnerr hmov
  have hsel := selectWithSynth_of_try 0 htry
  have hfc := forecast_of_select hsel
  rw [hfc]
  simp only [Except.toOption, Option.map, clampPoint, List.map]
  norm_num

theorem envC7_scan : localScan envC7 (diseaseKey "dengue") 0 24 (triedKeys envC7 "R")
    = some ("R", flatS) := rfl

theorem envC7_warnings : (get_monthly_history envC7 "dengue" "R" 0 24).2.2 = [] := by
  have hlive : seriesNotUsable (liveStage envC7 (diseaseKey "dengue") "R" 0 24).1
      = true := by decide
  have hg := gmh_scan_some_bad hlive envC7_scan notUsable_flatS
  rw [hg]

theorem envC7b_scan : localScan envC7b (diseaseKey "dengue") 0 24 (triedKeys envC7b "R")
    = some ("R", flatS) := rfl

theorem envC7b_warnings : (get_monthly_history envC7b "dengue" "R" 0 24).2.2 = [] := by
  have hlive : seriesNotUsable (liveStage envC7b (diseaseKey "dengue") "R" 0 24).1
      = true := by decide
  have hg := gmh_scan_some_bad hlive envC7b_scan notUsable_flatS
  rw [hg]

theorem sum_jan : sumAtMonth c5Daily 24252 = 310 := by
  rw [sumAtMonth]
  simp only [c5Daily, List.filter, List.map]
  norm_num

theorem sum_feb : sumAtMonth c5Daily 24253 = 280 := by
  rw [sumAtMonth]
  simp only [c5Daily, List.filter, List.map]
  norm_num

theorem toMonthly_c5 : _to_monthly_df c5Daily = [(24252, 310), (24253, 280)] := by
  rw [_to_monthly_df, if_neg (by decide)]
  have hc : classifiedDaily c5Daily = true := by decide
  rw [hc]
  simp only [if_true]
  rw [dailyResample]
  have hmin : minMonth c5Daily = 24252 := by decide
  have hmax : maxMonth c5Daily = 24253 := by decide
  rw [hmin, hmax]
  norm_num [List.range_succ]
  exact ⟨sum_jan, sum_feb⟩

theorem naive_ramp (sq : ℚ → ℚ) :
    ∃ pts, _naive_seasonal_forecast sq rampY 3 = .ok pts ∧
      pts.map PredPoint.mean = [10, 20, 30] := by
  refine ⟨_, naive_ok_intro sq rampY 3 (by decide) (by norm_num), ?_⟩
  rw [zipWith_mk_map_mean _ _ _ _ (by simp [futureIdx, rampY])]
  rfl

/-! ## Claims -/

/-- C1, counterexample: "for every input, `forecast_monthly` never raises"
is false as stated.  With adapters returning no data and the horizon -1,
every strategy fails, and the final synthetic extension calls
`pd.date_range` with negative periods outside any `try` block (forecast.py
line 324), so a `ValueError` escapes to the caller — the `.error` case of
the embedding. -/
theorem claim_C1_counterexample :
    forecast_monthly envEmpty "dengue" "R" 600 624 (-1)
      = .error ("date_range periods must be non-negative") := by
  have htryerr : tryStrategies envEmpty
      (historyGuard envEmpty "dengue" "R" 600 624).1 (-1) = .error ("no model") :=
    tryStrategies_err (sarimax_err_noSM rfl)
      (naive_err_neg (by norm_num)) (moving_err_neg (by norm_num))
  have hsel := selectWithSynth_err_of_neg 600 (by norm_num) htryerr
  exact forecast_err hsel

/-- C1, amended: for every environment (adapters and model fit may fail
arbitrarily), every disease, region and date range, and every NONNEGATIVE
horizon, `forecast_monthly` catches every fetch failure and every model-fit
failure internally and returns a complete `ForecastResult`. -/
theorem claim_C1_never_raises (env : Env) (d r : String) (f t : ℕ) (h : ℤ)
    (hpos : 0 ≤ h) :
    ∃ res, forecast_monthly env d r f t h = .ok res := by
  obtain ⟨out, hout⟩ := selectWithSynth_ok_of_nonneg env (historyGuard env d r f t).1 f hpos
  rw [forecast_monthly_eq, hout]
  exact ⟨_, rfl⟩

/-- C1, witness: the amended theorem at a concrete environment and input. -/
theorem claim_C1_witness :
    (0 : ℤ) ≤ 6 ∧ ∃ res, forecast_monthly envEmpty "dengue" "R" 600 624 6 = .ok res :=
  ⟨by norm_num, claim_C1_never_raises envEmpty "dengue" "R" 600 624 6 (by norm_num)⟩

/-- C2: whenever `forecast_monthly` returns — under the index contract of
the external statsmodels fit — the forecast has exactly the requested
number of points, and its dates are the strictly increasing, gap-free,
consecutive month indices beginning the month after the last historical
month. -/
theorem claim_C2_forecast_dates (env : Env) (hsar : SarimaxIdxOK env)
    (d r : String) (f t : ℕ) (h : ℤ) (res : ForecastResult)
    (hok : forecast_monthly env d r f t h = .ok res) :
    0 ≤ h ∧ res.forecast.length = h.toNat ∧ res.history ≠ [] ∧
      res.forecast.map ForecastPoint.date
        = futureIdx (lastMonth res.history 0) h.toNat ∧
      (res.forecast.map ForecastPoint.date).Pairwise (· < ·) := by
  obtain ⟨pts, m, w, hsel, hres⟩ := forecast_monthly_ok_elim hok
  subst hres
  have hy := historyGuard_ne_nil env d r f t
  obtain ⟨hpos, hmonths⟩ := selectWithSynth_months hsar hy hsel
  have hdates : ((pts.map clampPoint).map ForecastPoint.date)
      = pts.map PredPoint.month := by
    rw [List.map_map]
    rfl
  refine ⟨hpos, ?_, hy, ?_, ?_⟩
  · show (pts.map clampPoint).length = h.toNat
    rw [List.length_map]
    exact selectWithSynth_length hsar hy hsel
  · show (pts.map clampPoint).map ForecastPoint.date = _
    rw [hdates, hmonths, lastMonth_congr hy f 0]
  · show ((pts.map clampPoint).map ForecastPoint.date).Pairwise (· < ·)
    rw [hdates, hmonths]
    exact futureIdx_pairwise _ _

/-- C2, witness: the theorem at a concrete run. -/
theorem claim_C2_witness :
    (forecast_monthly envEmpty "dengue" "R" 600 624 6).toOption.map
      (fun res => res.forecast.length) = some 6 := by
  have hsar : SarimaxIdxOK envEmpty := fun y steps out hok => Except.noConfusion hok
  obtain ⟨res, hok, -, -, -⟩ := forecast_empty_adapters envEmpty "dengue" "R" 600 624
    (fun _ _ _ => rfl) (fun _ _ _ _ => rfl)
  obtain ⟨-, hlen, -, -, -⟩ :=
    claim_C2_forecast_dates envEmpty hsar "dengue" "R" 600 624 6 res hok
  rw [hok]
  simp [Except.toOption, hlen]

/-- C3, counterexample: the claimed invariant
`lower_bound <= point_estimate` is false as stated.  When the local adapter
supplies a usable but negative-valued series, the moving-average point
estimate is -150 while the clamped lower bound is 0. -/
theorem claim_C3_counterexample :
    (forecast_monthly envNeg "dengue" "R" 0 24 1).toOption.map
        (fun res => res.forecast.map fun p => (p.yhat, p.lower))
      = some [(-150, 0)] ∧ ¬ ((0 : ℚ) ≤ -150) := by
  constructor
  · have h := envNeg_forecast
    cases hfm : (forecast_monthly envNeg "dengue" "R" 0 24 1).toOption with
    | none =>
      rw [hfm] at h
      cases h
    | some res =>
      rw [hfm] at h
      rw [Option.map_some'] at h
      injection h with h
      rw [Option.map_some', h]
      rfl
  · norm_num

/-- C3, amended: for every returned ForecastResult (under nonnegativity of
the square root and the bound contract of the external fit), every
forecast point satisfies `0 <= lower`, `lower <= upper` and
`yhat <= upper`; and `lower <= yhat` holds whenever the point estimate is
nonnegative (the point estimate itself is never clamped, so a negative
point estimate lies below the clamped lower bound). -/
theorem claim_C3_bounds (env : Env) (hsq : ∀ q, 0 ≤ env.sq q)
    (hsar : SarimaxBoundsOK env) (d r : String) (f t : ℕ) (h : ℤ)
    (res : ForecastResult)
    (hok : forecast_monthly env d r f t h = .ok res) :
    ∀ p ∈ res.forecast, 0 ≤ p.lower ∧ p.lower ≤ p.upper ∧ p.yhat ≤ p.upper ∧
      (0 ≤ p.yhat → p.lower ≤ p.yhat) := by
  obtain ⟨pts, m, w, hsel, hres⟩ := forecast_monthly_ok_elim hok
  subst hres
  intro p hp
  obtain ⟨q, hq, rfl⟩ := List.mem_map.mp hp
  obtain ⟨hlo, hhi⟩ := selectWithSynth_bounds hsq hsar hsel q hq
  refine ⟨le_max_left 0 q.lo, max_le_max le_rfl (le_trans hlo hhi), ?_, ?_⟩
  · exact le_trans hhi (le_max_right 0 q.hi)
  · intro hy
    exact max_le hy hlo

/-- C3, witness: the amended theorem at a concrete run. -/
theorem claim_C3_witness :
    (∀ q : ℚ, 0 ≤ envEmpty.sq q) ∧
    ∃ res, forecast_monthly envEmpty "dengue" "R" 600 624 6 = .ok res ∧
      ∀ p ∈ res.forecast, 0 ≤ p.lower ∧ p.lower ≤ p.upper := by
  refine ⟨fun q => le_refl 0, ?_⟩
  have hsar : SarimaxBoundsOK envEmpty := fun y steps out hok => Except.noConfusion hok
  obtain ⟨res, hok, -, -, -⟩ := forecast_empty_adapters envEmpty "dengue" "R" 600 624
    (fun _ _ _ => rfl) (fun _ _ _ _ => rfl)
  refine ⟨res, hok, fun p hp => ?_⟩
  obtain ⟨h1, h2, -, -⟩ :=
    claim_C3_bounds envEmpty (fun q => le_refl 0) hsar "dengue" "R" 600 624 6 res hok p hp
  exact ⟨h1, h2⟩

/-- C4, counterexample: with empty live and local adapters the claimed
`method == "synthetic"` is false: the resolver substitutes the 12-point
synthetic baseline as HISTORY, and the seasonal-naive strategy (applicable
at 12 points) then wins, so the reported method is "naive_seasonal". -/
theorem claim_C4_counterexample :
    (forecast_monthly envEmpty "dengue" "Sri Lanka" 600 624 6).toOption.map
        ForecastResult.method = some ("naive_seasonal") ∧
    some ("naive_seasonal") ≠ some ("synthetic") := by
  constructor
  · obtain ⟨res, hok, hm, -, -⟩ := forecast_empty_adapters envEmpty "dengue" "Sri Lanka"
      600 624 (fun _ _ _ => rfl) (fun _ _ _ _ => rfl)
    rw [hok]
    simp [Except.toOption, hm]
  · decide

/-- C4, amended: given adapters that return no data, for any disease and
region, `forecast_monthly(..., horizon_months = 6)` returns
`method == "naive_seasonal"` (the seasonal-naive repetition of the
synthetic baseline history), exactly 6 forecast points, and the warnings
list is exactly the one no-usable-data warning (in particular it is
non-empty). -/
theorem claim_C4_degradation (env : Env) (disease region : String) (f t : ℕ)
    (hl : ∀ r2 a b, env.fetchLive r2 a b = .ok [])
    (hloc : ∀ d2 k a b, env.fetchLocal d2 k a b = .ok []) :
    ∃ res, forecast_monthly env disease region f t 6 = .ok res ∧
      res.method = "naive_seasonal" ∧ res.forecast.length = 6 ∧
      res.warnings = [noUsableMsg] ∧ res.warnings ≠ [] := by
  obtain ⟨res, h1, h2, h3, h4⟩ := forecast_empty_adapters env disease region f t hl hloc
  refine ⟨res, h1, h2, h3, h4, ?_⟩
  rw [h4]
  simp

/-- C4, witness: the amended theorem at a concrete environment. -/
theorem claim_C4_witness :
    envEmpty.fetchLive "X" 0 1 = .ok [] ∧
    ∃ res, forecast_monthly envEmpty "covid 19" "World" 600 624 6 = .ok res ∧
      res.method = "naive_seasonal" ∧ res.forecast.length = 6 ∧
      res.warnings = [noUsableMsg] ∧ res.warnings ≠ [] :=
  ⟨rfl, claim_C4_degradation envEmpty "covid 19" "World" 600 624
    (fun _ _ _ => rfl) (fun _ _ _ _ => rfl)⟩

/-- C5: the Monthly Series Normalizer dispatches on exactly the predicate
"at least 28 rows and more than 5 distinct day-of-month values", both
branches aggregate the values within one calendar month by SUM, and the
concrete daily scenario (31 January days summing to 310, 28 February days
summing to 280) normalizes to the monthly series
[(Jan 2021, 310), (Feb 2021, 280)]. -/
theorem claim_C5_normalizer :
    (∀ s : List Obs, classifiedDaily s = true ↔
      (28 ≤ s.length ∧ 5 < ((s.map Obs.day).dedup).length)) ∧
    (∀ s : List Obs, s ≠ [] →
      _to_monthly_df s
        = (if classifiedDaily s then dailyResample s else monthlyGroup s)) ∧
    (∀ (s : List Obs) (m : ℕ) (v : ℚ),
      (m, v) ∈ _to_monthly_df s → v = sumAtMonth s m) ∧
    _to_monthly_df c5Daily = [(24252, 310), (24253, 280)] := by
  refine ⟨?_, ?_, ?_, toMonthly_c5⟩
  · intro s
    simp [classifiedDaily]
  · intro s hs
    rw [_to_monthly_df, if_neg (by simp [List.isEmpty_iff, hs])]
  · intro s m v hmem
    rw [_to_monthly_df] at hmem
    by_cases he : s.isEmpty
    · rw [if_pos he] at hmem
      cases hmem
    · rw [if_neg he] at hmem
      by_cases hc : classifiedDaily s
      · rw [if_pos hc] at hmem
        unfold dailyResample at hmem
        obtain ⟨k, hk, heq⟩ := List.mem_map.mp hmem
        rw [Prod.mk.injEq] at heq
        obtain ⟨h1, h2⟩ := heq
        rw [← h1, ← h2]
      · rw [if_neg hc] at hmem
        unfold monthlyGroup at hmem
        obtain ⟨k, hk, heq⟩ := List.mem_map.mp hmem
        rw [Prod.mk.injEq] at heq
        obtain ⟨h1, h2⟩ := heq
        rw [← h1, ← h2]

/-- C5, witness: the classification test and the sum property at the
concrete daily scenario. -/
theorem claim_C5_witness :
    (classifiedDaily c5Daily = true ↔
      (28 ≤ c5Daily.length ∧ 5 < ((c5Daily.map Obs.day).dedup).length)) ∧
    c5Daily ≠ [] ∧
    _to_monthly_df c5Daily
      = (if classifiedDaily c5Daily then dailyResample c5Daily else monthlyGroup c5Daily) :=
  ⟨claim_C5_normalizer.1 c5Daily, by decide,
   claim_C5_normalizer.2.1 c5Daily (by decide)⟩

/-- C6: the Seasonal-Naive Repeater succeeds whenever the history has at
least 12 points (and the horizon is the nonnegative count reached on every
surviving path): step i forecasts the value at position
`len - 12 + (i mod 12)` (the wrap of the last 12 observed months), the
forecast months are the consecutive months after the last historical one,
and every interval half-width is `1.28 * naiveSD` — the standard deviation
of the 12-lag residuals, or of the raw series when there are fewer than 3
residuals.  On the 12-point ramp [10, ..., 120] with horizon 3 the means
are exactly [10, 20, 30], and the band uses the raw-series fallback. -/
theorem claim_C6_seasonal_naive :
    (∀ (sq : ℚ → ℚ) (y : List (ℕ × ℚ)) (steps : ℤ), 12 ≤ y.length → 0 ≤ steps →
      ∃ pts, _naive_seasonal_forecast sq y steps = .ok pts ∧
        pts.map PredPoint.mean = (List.range steps.toNat).map (fun i =>
          (y.map Prod.snd).getD (y.length - 12 + (i % 12)) 0) ∧
        pts.map PredPoint.month = futureIdx (lastMonth y 0) steps.toNat ∧
        (∀ p ∈ pts, p.hi - p.mean = (32 / 25 : ℚ) * naiveSD sq (y.map Prod.snd) ∧
          p.mean - p.lo = (32 / 25 : ℚ) * naiveSD sq (y.map Prod.snd))) ∧
    (∀ sq : ℚ → ℚ, ∃ pts, _naive_seasonal_forecast sq rampY 3 = .ok pts ∧
      pts.map PredPoint.mean = [10, 20, 30]) ∧
    (lag12Resids (rampY.map Prod.snd)).length < 3 ∧
    (∀ sq : ℚ → ℚ, naiveSD sq (rampY.map Prod.snd)
      = sampleStd sq (rampY.map Prod.snd)) := by
  refine ⟨?_, fun sq => naive_ramp sq, by decide,
    fun sq => by rw [naiveSD, if_neg (by decide)]⟩
  intro sq y steps h12 hpos
  refine ⟨_, naive_ok_intro sq y steps h12 hpos, ?_, ?_, ?_⟩
  · apply zipWith_mk_map_mean
    rw [futureIdx_length, List.length_map, List.length_range]
  · apply zipWith_mk_map_month
    rw [futureIdx_length, List.length_map, List.length_range]
  · intro p hp
    obtain ⟨mo, v, rfl⟩ := mem_zipWith_mk hp
    constructor
    · show v + (32 / 25 : ℚ) * naiveSD sq (y.map Prod.snd) - v = _
      ring
    · show v - (v - (32 / 25 : ℚ) * naiveSD sq (y.map Prod.snd)) = _
      ring

/-- C6, witness: the scenario part at a concrete square root. -/
theorem claim_C6_witness :
    ∃ pts, _naive_seasonal_forecast (fun _ => 0) rampY 3 = .ok pts ∧
      pts.map PredPoint.mean = [10, 20, 30] :=
  claim_C6_seasonal_naive.2.1 (fun _ => 0)

/-- C7, counterexample: the local stage does NOT stop only at usable
candidates.  In `envC7` the scan stops at the first candidate R, whose
series is non-empty but flat (not usable), although the later candidate
XYZ — also in the tried list — would have returned a usable series.  And in
`envC7b`, where no candidate yields a usable series (both return flat
series), no warning at all is appended, against the claimed "exactly one
warning". -/
theorem claim_C7_counterexample :
    localScan envC7 (diseaseKey "dengue") 0 24 (triedKeys envC7 "R")
      = some ("R", flatS) ∧
    seriesNotUsable (some flatS) = true ∧
    ("XYZ" ∈ triedKeys envC7 "R") ∧
    fetchLocalOr envC7 (diseaseKey "dengue") ("XYZ") 0 24 = variedS ∧
    seriesNotUsable (some variedS) = false ∧
    (get_monthly_history envC7b "dengue" "R" 0 24).2.2 = [] ∧
    triedKeys envC7b "R" = ["R", "XYZ"] ∧
    fetchLocalOr envC7b (diseaseKey "dengue") ("R") 0 24 = flatS ∧
    fetchLocalOr envC7b (diseaseKey "dengue") ("XYZ") 0 24 = flatS2 ∧
    seriesNotUsable (some flatS2) = true :=
  ⟨envC7_scan, notUsable_flatS, by decide, rfl, notUsable_variedS, envC7b_warnings,
   by decide, rfl, rfl, notUsable_flatS2⟩

/-- C7, amended: the local stage tries the candidate keys in order and
stops at the FIRST candidate whose (exception-swallowed) result is
NON-EMPTY, regardless of usability; exactly one warning is appended if and
only if no candidate returns a non-empty series (no warning is appended
when one does, even if the adopted series is flat or too short). -/
theorem claim_C7_local_scan :
    (∀ (env : Env) (dis : String) (f t : ℕ) (keys : List String) (r : String)
        (s : List Obs),
      localScan env dis f t keys = some (r, s) →
        s ≠ [] ∧ fetchLocalOr env dis r f t = s ∧
          ∃ pre post, keys = pre ++ r :: post ∧
            ∀ k ∈ pre, fetchLocalOr env dis k f t = []) ∧
    (∀ (env : Env) (dis : String) (f t : ℕ) (keys : List String),
      localScan env dis f t keys = none ↔
        ∀ k ∈ keys, fetchLocalOr env dis k f t = []) ∧
    (∀ (env : Env) (disease region : String) (f t : ℕ),
      seriesNotUsable (liveStage env (diseaseKey disease) region f t).1 = true →
      localScan env (diseaseKey disease) f t (triedKeys env region) = none →
      (get_monthly_history env disease region f t).2.2 = [noUsableMsg]) ∧
    (∀ (env : Env) (disease region : String) (f t : ℕ) (r : String) (s : List Obs),
      seriesNotUsable (liveStage env (diseaseKey disease) region f t).1 = true →
      localScan env (diseaseKey disease) f t (triedKeys env region) = some (r, s) →
      (get_monthly_history env disease region f t).2.2 = []) := by
  refine ⟨fun env dis f t keys r s hsc => localScan_some_spec hsc,
    fun env dis f t keys => localScan_none_iff,
    fun env disease region f t hlive hscan => by rw [gmh_scan_none hlive hscan],
    fun env disease region f t r s hlive hscan => ?_⟩
  by_cases hbad : seriesNotUsable (some s) = true
  · rw [gmh_scan_some_bad hlive hscan hbad]
  · have hgood : seriesNotUsable (some s) = false := eq_false_of_ne_true hbad
    rw [gmh_scan_some_good hlive hscan hgood]

/-- C7, witness: the amended theorem at concrete environments. -/
theorem claim_C7_witness :
    flatS ≠ [] ∧
    (get_monthly_history envEmpty "dengue" "R" 0 24).2.2 = [noUsableMsg] :=
  ⟨(claim_C7_local_scan.1 envC7 (diseaseKey "dengue") 0 24 (triedKeys envC7 "R")
      "R" flatS envC7_scan).1,
   claim_C7_local_scan.2.2.1 envEmpty "dengue" "R" 0 24 (by decide) (by decide)⟩

/-- C8: the Monthly Series Normalizer is idempotent — for an already-monthly
series (every date a month start) with no duplicate months, feeding the
normalizer its own output (reinjected as month-start observations) returns
the same series. -/
theorem claim_C8_idempotent (s : List Obs) (_hday : ∀ o ∈ s, o.day = 1)
    (_hnd : (s.map Obs.month).Nodup) :
    _to_monthly_df (reinjectMonthly (_to_monthly_df s)) = _to_monthly_df s := by
  have hlt := toMonthly_months_sorted s
  exact toMonthly_reinject (hlt.imp (fun hab => Nat.ne_of_lt hab))
    (hlt.imp (fun hab => Nat.le_of_lt hab))

/-- C8, witness: the theorem at a concrete already-monthly series. -/
theorem claim_C8_witness :
    (∀ o ∈ ([⟨0, 1, 5⟩, ⟨2, 1, 7⟩] : List Obs), o.day = 1) ∧
    _to_monthly_df (reinjectMonthly (_to_monthly_df [⟨0, 1, 5⟩, ⟨2, 1, 7⟩]))
      = _to_monthly_df [⟨0, 1, 5⟩, ⟨2, 1, 7⟩] :=
  ⟨by decide, claim_C8_idempotent [⟨0, 1, 5⟩, ⟨2, 1, 7⟩] (by decide) (by decide)⟩

/-- C9: the response formatter clamps BOTH bounds to be nonnegative
(`max 0 _`) and passes the point estimate through unclamped; concretely, on
the negative-valued series the strategy upper bound -150 is reported as 0
while the point estimate stays -150. -/
theorem claim_C9_clamping :
    (∀ (env : Env) (d r : String) (f t : ℕ) (h : ℤ) (res : ForecastResult),
      forecast_monthly env d r f t h = .ok res →
      ∃ pts m w, selectWithSynth env (historyGuard env d r f t).1 f h = .ok (pts, m, w) ∧
        res.forecast = pts.map clampPoint ∧
        res.forecast.map ForecastPoint.yhat = pts.map PredPoint.mean ∧
        res.forecast.map ForecastPoint.upper = pts.map (fun q => max 0 q.hi) ∧
        res.forecast.map ForecastPoint.lower = pts.map (fun q => max 0 q.lo)) ∧
    (forecast_monthly envNeg "dengue" "R" 0 24 1).toOption.map
        (fun res => res.forecast.map fun p => (p.yhat, p.upper)) = some [(-150, 0)] := by
  constructor
  · intro env d r f t h res hok
    obtain ⟨pts, m, w, hsel, hres⟩ := forecast_monthly_ok_elim hok
    subst hres
    refine ⟨pts, m, w, hsel, rfl, ?_, ?_, ?_⟩ <;>
      · rw [List.map_map]
        rfl
  · have h := envNeg_forecast
    cases hfm : (forecast_monthly envNeg "dengue" "R" 0 24 1).toOption with
    | none =>
      rw [hfm] at h
      cases h
    | some res =>
      rw [hfm] at h
      rw [Option.map_some'] at h
      injection h with h
      rw [Option.map_some', h]
      rfl

/-- C9, witness: the general clamping fact at a concrete run. -/
theorem claim_C9_witness :
    ∃ res, forecast_monthly envEmpty "dengue" "R" 600 624 6 = .ok res ∧
      ∃ pts m w, selectWithSynth envEmpty
          (historyGuard envEmpty "dengue" "R" 600 624).1 600 6 = .ok (pts, m, w) ∧
        res.forecast = pts.map clampPoint := by
  obtain ⟨res, hok, -, -, -⟩ := forecast_empty_adapters envEmpty "dengue" "R" 600 624
    (fun _ _ _ => rfl) (fun _ _ _ _ => rfl)
  obtain ⟨pts, m, w, hsel, hf, -, -, -⟩ :=
    claim_C9_clamping.1 envEmpty "dengue" "R" 600 624 6 res hok
  exact ⟨res, hok, pts, m, w, hsel, hf⟩

/-- C10: when the live stage holds no usable series and the local scan
stops at a candidate whose non-empty series is itself unusable (flat or
shorter than 2), the resolver discards that series in favor of the
synthetic baseline, the provenance contains both the local entry (for that
candidate) and the synthetic entry, and no warning is appended. -/
theorem claim_C10_flat_local (env : Env) (disease region : String) (f t : ℕ)
    (r : String) (s : List Obs)
    (hlive : seriesNotUsable (liveStage env (diseaseKey disease) region f t).1 = true)
    (hscan : localScan env (diseaseKey disease) f t (triedKeys env region) = some (r, s))
    (hbad : seriesNotUsable (some s) = true) :
    (get_monthly_history env disease region f t).1
      = _to_monthly_df (genSynth f 12 100) ∧
    localProvMsg r ∈ (get_monthly_history env disease region f t).2.1 ∧
    synthProvMsg ∈ (get_monthly_history env disease region f t).2.1 ∧
    (get_monthly_history env disease region f t).2.2 = [] := by
  have hg := gmh_scan_some_bad hlive hscan hbad
  have h1 : (get_monthly_history env disease region f t).1
      = _to_monthly_df (genSynth f 12 100) := by
    rw [hg]
  have h21 : (get_monthly_history env disease region f t).2.1
      = (liveStage env (diseaseKey disease) region f t).2
        ++ [localProvMsg r] ++ [synthProvMsg] := by
    rw [hg]
  have h22 : (get_monthly_history env disease region f t).2.2 = [] := by
    rw [hg]
  refine ⟨h1, ?_, ?_, h22⟩ <;>
    · rw [h21]
      simp

/-- C10, witness: the theorem at the concrete flat-local environment. -/
theorem claim_C10_witness :
    (get_monthly_history envC7 "dengue" "R" 0 24).1
      = _to_monthly_df (genSynth 0 12 100) ∧
    localProvMsg "R" ∈ (get_monthly_history envC7 "dengue" "R" 0 24).2.1 ∧
    synthProvMsg ∈ (get_monthly_history envC7 "dengue" "R" 0 24).2.1 ∧
    (get_monthly_history envC7 "dengue" "R" 0 24).2.2 = [] :=
  claim_C10_flat_local envC7 "dengue" "R" 0 24 "R" flatS (by decide)
    envC7_scan notUsable_flatS

end PHF
